import Mathlib

/-!
# Budget-Planner MT940 import: shallow embedding and verification

This file embeds the MT940 statement parser and the database reconciliation
layer of the Budget-Planner repository
(`src/utils/data/mt940import_utils.py`, `src/utils/data/date_utils.py`,
`src/utils/data/database/transaction_utils.py`,
`src/utils/data/database/account_utils.py`,
`src/utils/data/database/account_history_utils.py`,
`src/utils/data/database/transaction_typ_utils.py`,
`src/utils/data/database/counterparty_utils.py`)
and proves properties of the embedded code.

Modelling conventions:
* Python `str` is `String`; all character-level work happens on `String.data`
  (a `List Char`), with Python slicing semantics (negative indices, clamping)
  reproduced by explicit helpers.
* Python `float` is modelled by `Rat`.  The reconciliation only negates,
  subtracts, compares and rounds balances, so rational arithmetic is the
  faithful abstraction of the values the code manipulates.
* The SQLite store is a record of lists of rows, one list per table, in
  insertion order.  `fetchone` of a filtered `SELECT` is the first matching
  row; SQL three-valued `NULL` equality is modelled by `sqlNullEq`, which is
  `false` whenever either side is `NULL` (`none`).
* Python exceptions become an `Err` sum type threaded with `Except`; each
  exception class of the source gets one constructor (the per-module generic
  `Error` classes are merged into `Err.dbError`, which is faithful because
  every `try` block of the import only calls functions of the module whose
  `Error` it catches).
-/

namespace BP

set_option maxRecDepth 100000

/-- Python exception classes reachable from the import code path. -/
inductive Err where
  /-- built-in `ValueError` -/
  | valueError
  /-- built-in `IndexError` -/
  | indexError
  /-- built-in `TypeError` -/
  | typeError
  /-- the per-module generic `Error` database exception classes -/
  | dbError
  /-- `transaction_utils.AlreadyExistsError` -/
  | alreadyExists
  /-- `account_history_utils.ExistingAccountHistoryError` -/
  | existingHist
  /-- `account_history_utils.NoAccountHistoryFoundError` -/
  | noHistFound
  /-- `account_utils.NoAccountFoundError` -/
  | noAccountFound
  /-- `account_utils.NoChangesDetectedError` -/
  | noChanges
  /-- `account_utils.RecordTooOldError` -/
  | recordTooOld
  /-- `mt940import_utils.DatabaseMT940Error` -/
  | mt940
deriving DecidableEq, Repr

deriving instance DecidableEq for Except

/-! ## Python string primitives -/

/-- Python code-point comparison of strings, as a Bool, on char lists. -/
def lexLt : List Char → List Char → Bool
  | [], [] => false
  | [], _ :: _ => true
  | _ :: _, [] => false
  | a :: as, b :: bs =>
      if a.toNat < b.toNat then true
      else if b.toNat < a.toNat then false
      else lexLt as bs

/-- Python `a < b` on strings. -/
def pyLt (a b : String) : Bool := lexLt a.data b.data

/-- Python `a <= b` on strings (total order: `a <= b` iff not `b < a`). -/
def pyLe (a b : String) : Bool := !(pyLt b a)

/-- Clamp a Python slice index to `[0, len]`, counting negatives from the
end, as Python slicing does. -/
def sliceIdx (len : Nat) (i : Int) : Nat :=
  if i < 0 then (Int.toNat (len + i)) else min i.toNat len

/-- Python `s[a:b]` (both bounds given, either possibly negative). -/
def pySlice (s : String) (a b : Int) : String :=
  let l := s.data
  let lo := sliceIdx l.length a
  let hi := sliceIdx l.length b
  String.mk ((l.take hi).drop lo)

/-- Python `s[a:]`. -/
def pyDrop (s : String) (a : Int) : String :=
  String.mk (s.data.drop (sliceIdx s.data.length a))

/-- Python `s[:b]`. -/
def pyTake (s : String) (b : Int) : String :=
  String.mk (s.data.take (sliceIdx s.data.length b))

/-- Python `s[i]` for a non-negative index: a `Char`, or `IndexError`. -/
def pyGet (s : String) (i : Nat) : Except Err Char :=
  match s.data.drop i with
  | [] => .error .indexError
  | c :: _ => .ok c

/-- Python `sub in s` for a single-character needle. -/
def pyContains (s : String) (c : Char) : Bool := s.data.contains c

/-- First position `i ≥ start` at which `pat` occurs in `l`, else `-1`
(Python `str.find` with an explicit start). -/
def pyFindFrom (s pat : String) (start : Nat) : Int :=
  match (List.range (s.data.length + 1)).find?
      (fun i => decide (start ≤ i) && pat.data.isPrefixOf (s.data.drop i)) with
  | some i => (i : Int)
  | none => -1

/-- Python `s.find(pat)`. -/
def pyFind (s pat : String) : Int := pyFindFrom s pat 0

/-- Digits of a numeric string, most significant first, as a `Nat`.
Callers guarantee the string is all ASCII digits. -/
def strToNat (s : String) : Nat :=
  s.data.foldl (fun a c => 10 * a + (c.toNat - 48)) 0

/-- Python `s.isdigit()` restricted to ASCII digits (the only inputs
the importer produces). -/
def pyIsDigit (s : String) : Bool := !s.data.isEmpty && s.data.all Char.isDigit

/-- Model of Python `float(s)` on the decimal strings the import builds:
an optional sign, then digits with at most one decimal point and at least
one digit; everything else raises `ValueError`. -/
def pyFloat (s : String) : Except Err Rat :=
  let l := s.data
  let core := match l with
    | '-' :: rest => some (true, rest)
    | '+' :: rest => some (false, rest)
    | _ => some (false, l)
  match core with
  | some (neg, digits) =>
      let intPart := digits.takeWhile Char.isDigit
      let rest := digits.dropWhile Char.isDigit
      let ok :=
        match rest with
        | [] => !intPart.isEmpty
        | '.' :: frac => (!intPart.isEmpty || !frac.isEmpty) && frac.all Char.isDigit
        | _ => false
      if ok then
        let frac := match rest with
          | '.' :: f => f
          | _ => []
        let num : Int := (strToNat (String.mk (intPart ++ frac)) : Int)
        let v : Rat := mkRat num ((10 : Nat) ^ frac.length)
        .ok (if neg then mkRat (-num) ((10 : Nat) ^ frac.length) else v)
      else .error .valueError
  | none => .error .valueError

/-! ## Rational helpers

Upstream, `Rat.add`, `Rat.sub`, `Rat.mul` and `Rat.inv` are marked
irreducible, which blocks concrete-input evaluation by `decide`;
the embedding therefore computes with `mkRat`-based equivalents and the
bridging lemmas below relate them to the ordinary field operations. -/

/-- Negation of a rational (Python unary minus). -/
def ratNeg (a : Rat) : Rat := mkRat (-a.num) a.den

/-- Subtraction of rationals through `mkRat`. -/
def ratSub (a b : Rat) : Rat :=
  mkRat (a.num * (b.den : Int) - b.num * (a.den : Int)) (a.den * b.den)

/-- Multiplication of rationals through `mkRat`. -/
def ratMul (a b : Rat) : Rat := mkRat (a.num * b.num) (a.den * b.den)

/-- Python `round(x, 2)`: round to two decimal places, ties to even. -/
def round2 (q : Rat) : Rat :=
  let scaled := ratMul q (mkRat 100 1)
  let f : Int := scaled.floor
  let r := ratSub scaled (mkRat f 1)
  let n : Int :=
    if r < mkRat 1 2 then f
    else if mkRat 1 2 < r then f + 1
    else if f % 2 = 0 then f else f + 1
  mkRat n 100

/-! ## date_utils.py -/

/-- Gregorian leap year, as Python `datetime` implements it. -/
def isLeapYear (y : Nat) : Bool :=
  (y % 4 == 0 && y % 100 != 0) || y % 400 == 0

/-- Days of a month, as Python `datetime` validates them. -/
def daysInMonth (y m : Nat) : Nat :=
  if m = 2 then (if isLeapYear y then 29 else 28)
  else if m = 4 || m = 6 || m = 9 || m = 11 then 30
  else 31

/-- The (year, month, day) triples Python `datetime.datetime` accepts
(year range restricted to the values reachable from two-digit years). -/
def validDate (y m d : Nat) : Bool :=
  1 ≤ m && m ≤ 12 && 1 ≤ d && d ≤ daysInMonth y m

/-- Zero-padded two-digit rendering, as `strftime` `%m`/`%d` produce. -/
def pad2 (n : Nat) : String :=
  if n < 10 then "0" ++ toString n else toString n

/-- A calendar day, standing in for Python `datetime.date` values such as
`date.today()`. -/
structure Date where
  year : Nat
  month : Nat
  day : Nat
deriving DecidableEq, Repr

/-- `strftime("%Y-%m-%d")` of a `Date` (years of interest are 4-digit). -/
def isoOfDate (d : Date) : String :=
  toString d.year ++ "-" ++ pad2 d.month ++ "-" ++ pad2 d.day

/-- `date(today.year, today.month, 1) - timedelta(days=1)`: the last day of
the month before `today`, from `get_last_balance`. -/
def lastDayLastMonth (d : Date) : Date :=
  if d.month = 1 then ⟨d.year - 1, 12, 31⟩
  else ⟨d.year, d.month - 1, daysInMonth d.year (d.month - 1)⟩

/-- `date_utils.get_iso_date` on an explicit argument (`today=False`).
The argument is `Option String` because the Python default is `None`. -/
def get_iso_date (date : Option String) : Except Err String :=
  match date with
  | none => .error .valueError
  | some s =>
      if s.length = 6 && pyIsDigit s then
        let year := strToNat (pyTake s 2)
        let month := strToNat (pySlice s 2 4)
        let day := strToNat (pySlice s 4 6)
        let fullYear := if year < 70 then 2000 + year else 1900 + year
        if validDate fullYear month day then
          .ok (isoOfDate ⟨fullYear, month, day⟩)
        else .error .valueError
      else .error .valueError

/-! Specification-side characterisation of the date conversion, used to
state the date-contract claim against the embedded `get_iso_date`. -/

/-- Spec reading of a valid `YYMMDD` input: six ASCII digits whose fields
form a valid calendar date under the `00`–`69` ↦ `2000`–`2069`,
`70`–`99` ↦ `1970`–`1999` convention. -/
def specValidYYMMDD (s : String) : Bool :=
  s.length = 6 && pyIsDigit s &&
    (let yy := strToNat (pyTake s 2)
     let fullYear := if yy < 70 then 2000 + yy else 1900 + yy
     validDate fullYear (strToNat (pySlice s 2 4)) (strToNat (pySlice s 4 6)))

/-- Spec reading of the ISO output for a valid `YYMMDD` input. -/
def specIsoOf (s : String) : String :=
  let yy := strToNat (pyTake s 2)
  let fullYear := if yy < 70 then 2000 + yy else 1900 + yy
  isoOfDate ⟨fullYear, strToNat (pySlice s 2 4), strToNat (pySlice s 4 6)⟩

/-! ## mt940import_utils.py: the statement parser -/

/-- Replace every non-overlapping occurrence of `pat` (non-empty) from the
left, as Python `str.replace`.  Structural recursion on a fuel equal to the
input length so that concrete inputs evaluate by kernel reduction. -/
def replaceAllAux (pat repl : List Char) : Nat → List Char → List Char
  | 0, s => s
  | _, [] => []
  | fuel + 1, c :: rest =>
      if !pat.isEmpty && pat.isPrefixOf (c :: rest) then
        repl ++ replaceAllAux pat repl fuel ((c :: rest).drop pat.length)
      else c :: replaceAllAux pat repl fuel rest

/-- Python `s.replace(pat, repl)` (the import never calls it with an empty
pattern). -/
def pyReplace (s pat repl : String) : String :=
  String.mk (replaceAllAux pat.data repl.data s.data.length s.data)

/-- Python `s.startswith(pat)`. -/
def pyStartsWith (s pat : String) : Bool := pat.data.isPrefixOf s.data

/-- Python `s.find(pat, start)` where the caller computed `start` as a
non-negative int (every start of the parser is of that shape). -/
def pyFindFromI (s pat : String) (start : Int) : Int :=
  pyFindFrom s pat start.toNat

/-- The `ClosingBalance` triple `(temp_account_number, date, balance)`
collected at `:62F:`. -/
def CBTriple : Type := Option String × String × String

instance : DecidableEq CBTriple := by
  unfold CBTriple
  infer_instance

instance : Repr CBTriple := by
  unfold CBTriple
  infer_instance

/-- One parsed-transaction dictionary as appended to `parsed_data`.
Absent or `None` dictionary values are `none`; the `currency` key is set
only by the flush performed at `:61:` and is modelled as `none` in the
`:62F:` flush (no consumer reads it). -/
structure ParsedTx where
  reference : Option String := none
  account : Option String := none
  openingBalance : Option Rat := none
  date : Option String := none
  bookingdate : Option String := none
  currency : Option Char := none
  amount : Option Rat := none
  ttNumber : Option String := none
  ttName : Option String := none
  purposeAddition : Option String := none
  purpose : Option String := none
  counterpartyAccount : Option String := none
  counterpartyName : Option String := none
  closingBalance : Option CBTriple := none
deriving DecidableEq, Repr

/-- The parser's mutable temporaries (`temp_*` variables and the
`last_block_86` flag of `parse_block`). -/
structure ParseTemps where
  last86 : Bool := false
  ttNumber : Option String := none
  ttName : Option String := none
  reference : Option String := none
  accountNumber : Option String := none
  openingBalance : Option Rat := none
  date : Option String := none
  bookingdate : Option String := none
  amountType : Option Int := none
  currency : Option Char := none
  amount : Option Rat := none
  purposeAddition : Option String := none
  purpose : Option String := none
  counterpartyName : Option String := none
  counterpartyAccount : Option String := none
  closingBalance : Option CBTriple := none
deriving DecidableEq, Repr

/-- The transaction dictionary gathered at a `:61:` flush (includes the
`Currency` key). -/
def gather61 (st : ParseTemps) : ParsedTx :=
  { reference := st.reference
    account := st.accountNumber
    openingBalance := st.openingBalance
    date := st.date
    bookingdate := st.bookingdate
    currency := st.currency
    amount := st.amount
    ttNumber := st.ttNumber
    ttName := st.ttName
    purposeAddition := st.purposeAddition
    purpose := st.purpose
    counterpartyAccount := st.counterpartyAccount
    counterpartyName := st.counterpartyName
    closingBalance := st.closingBalance }

/-- The transaction dictionary gathered at a `:62F:` flush (no `Currency`
key; the closing balance passed in is the freshly built triple). -/
def gather62 (st : ParseTemps) (cb : CBTriple) : ParsedTx :=
  { reference := st.reference
    account := st.accountNumber
    openingBalance := st.openingBalance
    date := st.date
    bookingdate := st.bookingdate
    currency := none
    amount := st.amount
    ttNumber := st.ttNumber
    ttName := st.ttName
    purposeAddition := st.purposeAddition
    purpose := st.purpose
    counterpartyAccount := st.counterpartyAccount
    counterpartyName := st.counterpartyName
    closingBalance := some cb }

/-- One iteration of the `for block in blocks` loop of `parse_block`. -/
def parse_block_step (acc : ParseTemps × List ParsedTx) (block : String) :
    Except Err (ParseTemps × List ParsedTx) := do
  let st := acc.1
  let out := acc.2
  if pyStartsWith block ":20:" then
    let st := { st with reference := some (pyDrop block 4) }
    let st := if st.last86 then { st with last86 := false } else st
    .ok (st, out)
  else if pyStartsWith block ":25:" then
    .ok ({ st with accountNumber := some (pyDrop block 13) }, out)
  else if pyStartsWith block ":60F:" then
    let ob ← pyFloat (pyReplace (pyDrop block 15) "," ".")
    let c6 ← pyGet block 6
    let ob := if c6 = 'D' then ratMul ob (mkRat (-1) 1) else ob
    .ok ({ st with openingBalance := some ob }, out)
  else if pyStartsWith block ":61:" then
    let (st, out) :=
      if st.last86 then
        ({ st with last86 := false }, out ++ [gather61 st])
      else (st, out)
    let b := pyDrop block 4
    let date := pyTake b 6
    let bookingdate := pySlice b 6 10
    let c10 ← pyGet b 10
    let amountType : Int := if c10 = 'C' || pySlice b 10 12 = "RD" then 1 else -1
    let currencyPosition : Nat := if pySlice b 10 12 = "RC" || pySlice b 10 12 = "RD" then 12 else 11
    let currency ← pyGet b currencyPosition
    let amountStart : Option Nat :=
      (List.range b.data.length).find?
        (fun i => decide (11 ≤ i) &&
          (match b.data.drop i with
           | c :: _ => c.isDigit
           | [] => false))
    let searchParam : String :=
      if pyContains b 'S' then "S" else if pyContains b 'N' then "N" else "F"
    let amountEnd := pyFindFromI b searchParam ((amountStart.getD 0 : Nat) : Int)
    let amountStr := pyReplace (pySlice b ((amountStart.getD 0 : Nat) : Int) amountEnd) "," "."
    let amount0 ← pyFloat amountStr
    let amount := ratMul amount0 (mkRat amountType 1)
    .ok ({ st with
      date := some date
      bookingdate := some bookingdate
      amountType := some amountType
      currency := some currency
      amount := some amount }, out)
  else if pyStartsWith block ":86:" then
    let b := pyDrop block 4
    let ttNumber := pyTake b 3
    let ttName := pySlice b 6 (pyFindFrom b "?" 6)
    let purposeFields : List String :=
      (List.range' 20 10).foldl
        (fun fields i =>
          let tag := "?" ++ toString i
          if pyFind b tag ≠ -1 then
            let start := pyFind b tag + 3
            let nextQ := pyFindFromI b "?" start
            let stop := if nextQ ≠ -1 then nextQ else (b.data.length : Int)
            fields ++ [pySlice b start stop]
          else fields)
        []
    let purpose := String.intercalate " " purposeFields
    let purposeAddition :=
      if pyStartsWith purpose "SVWZ+" then some "SVWZ"
      else if pyStartsWith purpose "EREF+" then some "EREF"
      else if pyStartsWith purpose "KREF+" then some "KREF"
      else st.purposeAddition
    let purpose := pyReplace (pyReplace (pyReplace purpose "SVWZ+" "") "EREF+" "") "KREF+" ""
    let cpAccountStart := pyFind b "?31" + 3
    let cpAccountEnd := pyFindFromI b "?" cpAccountStart
    let cpAccount := pySlice b cpAccountStart cpAccountEnd
    let cpNameStart := pyFind b "?32" + 3
    let cpNameEnd := pyFindFromI b "?" cpNameStart
    let cpName := pySlice b cpNameStart cpNameEnd
    let cpName :=
      if pyFind b "?33" ≠ -1 then
        let secondStart := pyFind b "?33" + 3
        let secondEnd := pyFindFromI b "?" secondStart
        cpName ++ " " ++ pySlice b secondStart secondEnd
      else cpName
    .ok ({ st with
      ttNumber := some ttNumber
      ttName := some ttName
      purposeAddition := purposeAddition
      purpose := some purpose
      counterpartyAccount := some cpAccount
      counterpartyName := some cpName
      last86 := true }, out)
  else if pyStartsWith block ":62F:" then
    let b := pyDrop block 5
    let cbDate := pySlice b 1 7
    let cbBal := pyTake (pyReplace (pyDrop b 10) "," ".") (-1)
    let cb : CBTriple := (st.accountNumber, cbDate, cbBal)
    let out := out ++ [gather62 { st with closingBalance := some cb } cb]
    let st := { st with
      closingBalance := none
      reference := none
      accountNumber := none
      openingBalance := none
      date := none
      bookingdate := none
      amountType := none
      amount := none
      purposeAddition := none
      purpose := none
      counterpartyName := none }
    .ok (st, out)
  else
    .ok (st, out)

/-- `mt940import_utils.parse_block`: fold the step over the block list and
return the accumulated `parsed_data`. -/
def parse_block (blocks : List String) : Except Err (List ParsedTx) := do
  let acc ← blocks.foldlM parse_block_step ({}, [])
  .ok acc.2

/-! ## The SQLite store -/

/-- SQL equality under three-valued logic: a `col = ?` condition holds only
when both sides are non-`NULL` and equal. -/
def sqlNullEq {α : Type} [DecidableEq α] (a b : Option α) : Bool :=
  match a, b with
  | some x, some y => x = y
  | _, _ => false

/-- A row of `tbl_Account`. -/
structure AccountRow where
  id : Nat
  widgetPosition : Int
  name : Option String
  number : Option String
  balance : Option Rat
  difference : Option Rat
  recordDate : Option String
  changeDate : Option String
deriving DecidableEq, Repr

/-- A row of `tbl_Transaction`. -/
structure TxRow where
  accountId : Nat
  date : String
  bookingdate : String
  ttId : Nat
  amount : Option Rat
  purpose : Option String
  counterpartyId : Nat
  categoryId : Nat
  userComments : Option String
  displayedName : Option String
deriving DecidableEq, Repr

/-- A row of `tbl_AccountHistory`. -/
structure HistRow where
  accountId : Nat
  balance : Rat
  recordDate : String
  changeDate : String
deriving DecidableEq, Repr

/-- A row of `tbl_TransactionTyp`. -/
structure TTRow where
  id : Nat
  name : Option String
  number : Option String
deriving DecidableEq, Repr

/-- A row of `tbl_Counterparty`. -/
structure CPRow where
  id : Nat
  name : Option String
  number : Option String
deriving DecidableEq, Repr

/-- The persistent store: one list per table in insertion order, plus the
next auto-increment id per id-carrying table. -/
structure DB where
  accounts : List AccountRow := []
  tts : List TTRow := []
  cps : List CPRow := []
  txs : List TxRow := []
  hist : List HistRow := []
  nextAccountId : Nat := 1
  nextTTId : Nat := 1
  nextCPId : Nat := 1
deriving DecidableEq, Repr

/-! ## account_utils.py -/

/-- Filter of `account_utils.get_account_id`: one equality condition per
supplied criterion (`[Name, Number, Balance, Difference]`). -/
def accountMatches (supName supNum supBal supDiff : Bool)
    (vName vNum : Option String) (vBal vDiff : Option Rat)
    (r : AccountRow) : Bool :=
  (!supName || sqlNullEq r.name vName) &&
  (!supNum || sqlNullEq r.number vNum) &&
  (!supBal || sqlNullEq r.balance vBal) &&
  (!supDiff || sqlNullEq r.difference vDiff)

/-- `account_utils.get_account_id`: first matching row's id, `Error` when no
criterion is supplied, `NoAccountFoundError` when nothing matches. -/
def get_account_id (db : DB) (supName supNum supBal supDiff : Bool)
    (vName vNum : Option String) (vBal vDiff : Option Rat) : Except Err Nat :=
  if !supName && !supNum && !supBal && !supDiff then .error .dbError
  else
    match db.accounts.find? (accountMatches supName supNum supBal supDiff vName vNum vBal vDiff) with
    | some r => .ok r.id
    | none => .error .noAccountFound

/-- `SELECT MAX(i8_WidgetPosition) FROM tbl_Account`. -/
def maxWidgetPosition (l : List AccountRow) : Option Int :=
  l.foldl (fun acc r =>
    match acc with
    | none => some r.widgetPosition
    | some m => some (max m r.widgetPosition)) none

/-- `account_utils.add_account`: append a row, with the widget position
defaulted to `MAX + 1` (or `0` on an empty table) and the change date
defaulted to today.  `tbl_Account` declares `i8_WidgetPosition`,
`str_AccountName` and `str_AccountNumber` as `UNIQUE NOT NULL`, so the
INSERT raises the module's generic `Error` when the name or the number is
`NULL` or when the position, the name or the number collides with an
existing row. -/
def add_account (db : DB) (today : Date) (name number : Option String)
    (balance difference : Rat) (recordDate : String)
    (position : Option Int := none) (changeDate : Option String := none) :
    Except Err DB :=
  let position :=
    match position with
    | some p => p
    | none =>
        match maxWidgetPosition db.accounts with
        | some m => m + 1
        | none => 0
  let changeDate :=
    match changeDate with
    | some c => c
    | none => isoOfDate today
  if name.isNone || number.isNone || db.accounts.any (fun r =>
      r.widgetPosition = position || r.name = name || r.number = number) then
    .error .dbError
  else
    .ok { db with
      accounts := db.accounts ++
        [{ id := db.nextAccountId
           widgetPosition := position
           name := name
           number := number
           balance := some balance
           difference := some difference
           recordDate := some recordDate
           changeDate := some changeDate }]
      nextAccountId := db.nextAccountId + 1 }

/-- Default of the `record_date` parameter of `add_account_mt940`
(`get_iso_date(date="010101")`, evaluated once at definition time). -/
def mt940DefaultRecordDate : String :=
  match get_iso_date (some "010101") with
  | .ok d => d
  | .error _ => ""

/-- `account_utils.add_account_mt940` as invoked by the import (`name`,
`balance` from the parsed entry, no difference).  `chosenName` models the
interactive naming collaborator: the `NameInputDialog` answer, or the
random fallback the code generates when the answer is empty. -/
def add_account_mt940 (db : DB) (today : Date) (number : Option String)
    (chosenName : String) (balance : Option Rat) : Except Err DB :=
  match number with
  | none => .error .dbError
  | some _ =>
      let balance := balance.getD 0
      let difference : Rat := 0
      add_account db today (some chosenName) number balance difference
        mt940DefaultRecordDate

/-- The seven column values handed to `update_account`.  String-typed
columns carry the raw Python value (where the empty string means "do not
update"); int/float-typed columns use `none` for the empty string. -/
structure AccountUpdate where
  widgetPosition : Option Int
  name : String
  number : String
  balance : Option Rat
  difference : Option Rat
  recordDate : String
  changeDate : String
deriving DecidableEq, Repr

/-- Which columns of `r` the update loop of `update_account` would write:
a supplied (non-empty) value that differs from the stored one. -/
def updChanges (u : AccountUpdate) (r : AccountRow) : Bool :=
  (match u.widgetPosition with
   | some v => v ≠ r.widgetPosition
   | none => false) ||
  (u.name ≠ "" && some u.name ≠ r.name) ||
  (u.number ≠ "" && some u.number ≠ r.number) ||
  (match u.balance with
   | some v => some v ≠ r.balance
   | none => false) ||
  (match u.difference with
   | some v => some v ≠ r.difference
   | none => false) ||
  (u.recordDate ≠ "" && some u.recordDate ≠ r.recordDate) ||
  (u.changeDate ≠ "" && some u.changeDate ≠ r.changeDate)

/-- Apply the written columns of an accepted update to the row. -/
def applyUpd (u : AccountUpdate) (r : AccountRow) : AccountRow :=
  { r with
    widgetPosition :=
      match u.widgetPosition with
      | some v => if v ≠ r.widgetPosition then v else r.widgetPosition
      | none => r.widgetPosition
    name := if u.name ≠ "" && some u.name ≠ r.name then some u.name else r.name
    number := if u.number ≠ "" && some u.number ≠ r.number then some u.number else r.number
    balance :=
      match u.balance with
      | some v => if some v ≠ r.balance then some v else r.balance
      | none => r.balance
    difference :=
      match u.difference with
      | some v => if some v ≠ r.difference then some v else r.difference
      | none => r.difference
    recordDate := if u.recordDate ≠ "" && some u.recordDate ≠ r.recordDate then some u.recordDate else r.recordDate
    changeDate := if u.changeDate ≠ "" && some u.changeDate ≠ r.changeDate then some u.changeDate else r.changeDate }

/-- `account_utils.update_account`: fetch the row, reject a record date
older than the stored one (`RecordTooOldError`), reject an update in which
no supplied column differs (`NoChangesDetectedError`), else write exactly
the differing supplied columns. -/
def update_account (db : DB) (accountId : Nat) (u : AccountUpdate) : Except Err DB :=
  match db.accounts.find? (fun r => r.id = accountId) with
  | none => .error .dbError
  | some r =>
      let stale :=
        match r.recordDate with
        | some cur => pyLt u.recordDate cur
        | none => false
      if stale then .error .recordTooOld
      else if !updChanges u r then .error .noChanges
      else .ok { db with
        accounts := db.accounts.map (fun x => if x.id = accountId then applyUpd u x else x) }

/-! ## transaction_typ_utils.py and counterparty_utils.py -/

/-- `transaction_typ_utils.get_transaction_typ_id`: first matching row's id;
the module's generic `Error` both when nothing matches and when no
criterion is supplied. -/
def get_transaction_typ_id (db : DB) (supName supNum : Bool)
    (vName vNum : Option String) : Except Err Nat :=
  if !supName && !supNum then .error .dbError
  else
    match db.tts.find? (fun r =>
        (!supName || sqlNullEq r.name vName) &&
        (!supNum || sqlNullEq r.number vNum)) with
    | some r => .ok r.id
    | none => .error .dbError

/-- `transaction_typ_utils.add_transaction_typ`: append a row;
`tbl_TransactionTyp` declares both columns `NOT NULL`, so the INSERT
raises the module's generic `Error` when the name or the number is
`NULL`. -/
def add_transaction_typ (db : DB) (name number : Option String) : Except Err DB :=
  if name.isNone || number.isNone then .error .dbError
  else .ok { db with
    tts := db.tts ++ [{ id := db.nextTTId, name := name, number := number }]
    nextTTId := db.nextTTId + 1 }

/-- `counterparty_utils.get_counterparty_id`: first matching row's id; the
module's generic `Error` when nothing matches.  (With no criterion the
source returns `None`; no import call site takes that path, and the model
maps it to the same generic error.) -/
def get_counterparty_id (db : DB) (supName supNum : Bool)
    (vName vNum : Option String) : Except Err Nat :=
  if !supName && !supNum then .error .dbError
  else
    match db.cps.find? (fun r =>
        (!supName || sqlNullEq r.name vName) &&
        (!supNum || sqlNullEq r.number vNum)) with
    | some r => .ok r.id
    | none => .error .dbError

/-- `counterparty_utils.add_counterparty`: append a row;
`tbl_Counterparty` declares both columns `UNIQUE NOT NULL`, so the INSERT
raises the module's generic `Error` when the name or the number is `NULL`
or collides with an existing row. -/
def add_counterparty (db : DB) (name number : Option String) : Except Err DB :=
  if name.isNone || number.isNone
      || db.cps.any (fun r => r.name = name || r.number = number) then
    .error .dbError
  else .ok { db with
    cps := db.cps ++ [{ id := db.nextCPId, name := name, number := number }]
    nextCPId := db.nextCPId + 1 }

/-! ## transaction_utils.py -/

/-- The ten-field tuple handed to `add_transaction`. -/
structure TxData where
  accountId : Nat
  date : String
  bookingdate : String
  ttId : Nat
  amount : Option Rat
  purpose : Option String
  counterpartyId : Nat
  categoryId : Nat
  userComments : Option String
  displayedName : Option String
deriving DecidableEq, Repr

/-- The duplicate check of `add_transaction`: agreement on the eight
natural-key columns (account, date, bookingdate, type, amount, purpose,
counterparty, category); `str_UserComments` and `str_DisplayedName` are
not compared. -/
def txKeyMatches (d : TxData) (r : TxRow) : Bool :=
  r.accountId = d.accountId &&
  r.date = d.date &&
  r.bookingdate = d.bookingdate &&
  r.ttId = d.ttId &&
  sqlNullEq r.amount d.amount &&
  sqlNullEq r.purpose d.purpose &&
  r.counterpartyId = d.counterpartyId &&
  r.categoryId = d.categoryId

/-- The row `add_transaction` inserts for a data tuple. -/
def txRowOf (d : TxData) : TxRow :=
  { accountId := d.accountId
    date := d.date
    bookingdate := d.bookingdate
    ttId := d.ttId
    amount := d.amount
    purpose := d.purpose
    counterpartyId := d.counterpartyId
    categoryId := d.categoryId
    userComments := d.userComments
    displayedName := d.displayedName }

/-- `transaction_utils.add_transaction`: raise `AlreadyExistsError` when a
row agreeing on the eight natural-key columns exists; otherwise the INSERT
raises the module's generic `Error` when the amount or the purpose is
`NULL` (`tbl_Transaction` declares `real_Amount` and `str_Purpose`
`NOT NULL`), else inserts. -/
def add_transaction (db : DB) (d : TxData) : Except Err DB :=
  if db.txs.any (txKeyMatches d) then .error .alreadyExists
  else if d.amount.isNone || d.purpose.isNone then .error .dbError
  else .ok { db with txs := db.txs ++ [txRowOf d] }

/-! ## account_history_utils.py -/

/-- `account_history_utils.add_account_history`: raise
`ExistingAccountHistoryError` when a row for `(account_id, record_date)`
exists and no manual override is set, else insert. -/
def add_account_history (db : DB) (today : Date) (accountId : Nat)
    (balance : Rat) (recordDate : String) (changeDate : String := "")
    (manualEntry : Bool := false) : Except Err DB :=
  let changeDate := if changeDate = "" then isoOfDate today else changeDate
  if (db.hist.any (fun r => r.accountId = accountId && r.recordDate = recordDate))
      && !manualEntry then
    .error .existingHist
  else .ok { db with
    hist := db.hist ++
      [{ accountId := accountId
         balance := balance
         recordDate := recordDate
         changeDate := changeDate }] }

/-- `ORDER BY str_RecordDate DESC LIMIT 1` over a filtered row list: a row
with maximal record date (the earliest such row; SQLite leaves ties
unspecified and the import never creates ties). -/
def maxByRecordDate (l : List HistRow) : Option HistRow :=
  l.foldl (fun acc r =>
    match acc with
    | none => some r
    | some m => if pyLt m.recordDate r.recordDate then some r else some m) none

/-- `account_history_utils.get_last_balance`: the balance of the latest
snapshot strictly before the last day of the month preceding `today`, or
`NoAccountHistoryFoundError`. -/
def get_last_balance (db : DB) (today : Date) (accountId : Nat) : Except Err Rat :=
  let cutoff := isoOfDate (lastDayLastMonth today)
  let rows := db.hist.filter (fun r => r.accountId = accountId && pyLt r.recordDate cutoff)
  match maxByRecordDate rows with
  | some r => .ok r.balance
  | none => .error .noHistFound

/-! ## mt940import_utils.py: the reconciliation engine -/

/-- Date handling of `insert_transactions` for one entry (lines building
`rti_date` and `rti_bookingdate`): convert the six-digit transaction date,
then recover the booking date year from the first two characters of the
ISO date and convert the result. -/
def computeBookingIso (date bookingdate : Option String) :
    Except Err (String × String) := do
  let rtiDate ← get_iso_date date
  let raw ←
    match bookingdate with
    | none => throw Err.typeError
    | some bd => pure (pyTake rtiDate 2 ++ bd)
  let rtiBookingdate ← get_iso_date (some raw)
  pure (rtiDate, rtiBookingdate)

/-- The account get-or-create step of one iteration of the `for entry in
data` loop of `insert_transactions`: the number lookup, with the
no-account failure answered by `add_account_mt940` and a retry.
`nameOracle` models the interactive naming collaborator of
`add_account_mt940` (dialog answer or random fallback). -/
def resolveAccount (today : Date) (nameOracle : Option String → String)
    (db : DB) (e : ParsedTx) : Except Err (DB × Nat) :=
  match get_account_id db false true false false none e.account none none with
  | .ok i => pure (db, i)
  | .error .noAccountFound => do
      let db2 ← add_account_mt940 db today e.account (nameOracle e.account) e.openingBalance
      let i ← get_account_id db2 false true false false none e.account none none
      pure (db2, i)
  | .error er => throw er

/-- The transaction-type get-or-create step of the same loop iteration:
the two-criteria lookup, with a failure answered by `add_transaction_typ`
and a retry. -/
def resolveTT (db : DB) (e : ParsedTx) : Except Err (DB × Nat) :=
  match get_transaction_typ_id db true true e.ttName e.ttNumber with
  | .ok i => pure (db, i)
  | .error .dbError => do
      let db2 ← add_transaction_typ db e.ttName e.ttNumber
      match get_transaction_typ_id db2 true true e.ttName e.ttNumber with
      | .ok i => pure (db2, i)
      | .error er => throw er
  | .error er => throw er

/-- The counterparty get-or-create step of the same loop iteration:
the number-only lookup, with a failure answered by `add_counterparty` and
a retry on both criteria. -/
def resolveCP (db : DB) (e : ParsedTx) : Except Err (DB × Nat) :=
  match get_counterparty_id db false true e.counterpartyName e.counterpartyAccount with
  | .ok i => pure (db, i)
  | .error .dbError => do
      let db2 ← add_counterparty db e.counterpartyName e.counterpartyAccount
      match get_counterparty_id db2 true true e.counterpartyName e.counterpartyAccount with
      | .ok i => pure (db2, i)
      | .error er => throw er
  | .error er => throw er

/-- Resolution phase of one iteration of the `for entry in data` loop of
`insert_transactions` (everything before the `add_transaction` call):
get-or-create the account, convert the dates, get-or-create the
transaction type and the counterparty, collect the closing balance. -/
def resolveEntry (today : Date) (nameOracle : Option String → String)
    (db : DB) (e : ParsedTx) : Except Err (DB × TxData × List CBTriple) := do
  let (db, rtiAccountId) ← resolveAccount today nameOracle db e
  let (rtiDate, rtiBookingdate) ← computeBookingIso e.date e.bookingdate
  let (db, rtiTtId) ← resolveTT db e
  let (db, rtiCpId) ← resolveCP db e
  let cb : List CBTriple :=
    match e.closingBalance with
    | some c => [c]
    | none => []
  pure (db,
    { accountId := rtiAccountId
      date := rtiDate
      bookingdate := rtiBookingdate
      ttId := rtiTtId
      amount := e.amount
      purpose := e.purpose
      counterpartyId := rtiCpId
      categoryId := 1
      userComments := none
      displayedName := none }, cb)

/-- `mt940import_utils.insert_transactions`: resolve and insert every
entry, counting inserted and duplicate transactions, and collect the
closing balances.  A generic database error of the transaction module
becomes `DatabaseMT940Error`. -/
def insert_transactions (today : Date) (nameOracle : Option String → String) :
    DB → List ParsedTx → List CBTriple → Nat → Nat →
    Except Err (DB × List CBTriple × Nat × Nat)
  | db, [], cbs, inserted, skipped => .ok (db, cbs, inserted, skipped)
  | db, e :: rest, cbs, inserted, skipped => do
      let (db, d, cb) ← resolveEntry today nameOracle db e
      let cbs := cbs ++ cb
      match add_transaction db d with
      | .ok db2 => insert_transactions today nameOracle db2 rest cbs (inserted + 1) skipped
      | .error .alreadyExists => insert_transactions today nameOracle db rest cbs inserted (skipped + 1)
      | .error .dbError => throw .mt940
      | .error er => throw er

/-- The `latest` dictionary of `insert_account_history_entries`: account
number to `(record_date, balance, rti_account_id)`, in insertion order. -/
def LatestMap : Type := List ((Option String) × (String × Rat × Nat))

instance : DecidableEq LatestMap := by
  unfold LatestMap
  infer_instance

/-- Python dict lookup on the association list. -/
def alistFind (m : LatestMap) (k : Option String) : Option (String × Rat × Nat) :=
  match m.find? (fun p => p.1 = k) with
  | some p => some p.2
  | none => none

/-- Python dict assignment: overwrite in place, or append a new key. -/
def alistSet (m : LatestMap) (k : Option String) (v : String × Rat × Nat) : LatestMap :=
  match m with
  | [] => [(k, v)]
  | p :: rest => if p.1 = k then (k, v) :: rest else p :: alistSet rest k v

/-- `mt940import_utils.insert_account_history_entries`: for every closing
balance, resolve the account, keep the latest (by raw-string comparison)
entry per account in `latest`, and insert a history snapshot, counting
added and already-existing rows. -/
def insert_account_history_entries (today : Date) :
    DB → List CBTriple → LatestMap → Nat → Nat →
    Except Err (DB × LatestMap × Nat × Nat)
  | db, [], latest, added, skipped => .ok (db, latest, added, skipped)
  | db, c :: rest, latest, added, skipped => do
      let accountNumber := c.1
      let recordDate := c.2.1
      let balanceStr := c.2.2
      let rtiAccountId ←
        match get_account_id db false true false false none accountNumber none none with
        | .ok i => pure i
        | .error .noAccountFound => throw Err.mt940
        | .error er => throw er
      let bal ← pyFloat balanceStr
      let latest :=
        match alistFind latest accountNumber with
        | none => alistSet latest accountNumber (recordDate, bal, rtiAccountId)
        | some cur =>
            if pyLt cur.1 recordDate then
              alistSet latest accountNumber (recordDate, bal, rtiAccountId)
            else latest
      let iso ← get_iso_date (some recordDate)
      match add_account_history db today rtiAccountId bal iso (isoOfDate today) with
      | .ok db2 => insert_account_history_entries today db2 rest latest (added + 1) skipped
      | .error .existingHist => insert_account_history_entries today db rest latest added (skipped + 1)
      | .error _ => throw Err.mt940

/-- The loop body of `update_account_balances` for one `latest` entry:
fetch the prior balance (0.0 when no history qualifies), round the
difference, and update the account, skipping the no-change and
record-too-old outcomes. -/
def updateBalanceEntry (today : Date) (db : DB) (recordDate : String)
    (balance : Rat) (rtiAccountId : Nat) : Except Err (Option DB) := do
  let lastBalance ←
    match get_last_balance db today rtiAccountId with
    | .ok b => pure b
    | .error .noHistFound => pure (0 : Rat)
    | .error er => throw er
  let difference := round2 (ratSub balance lastBalance)
  let iso ← get_iso_date (some recordDate)
  match update_account db rtiAccountId
      { widgetPosition := none
        name := ""
        number := ""
        balance := some balance
        difference := some difference
        recordDate := iso
        changeDate := isoOfDate today } with
  | .ok db2 => pure (some db2)
  | .error .noAccountFound => throw Err.mt940
  | .error .noChanges => pure none
  | .error .recordTooOld => pure none
  | .error er => throw er

/-- `mt940import_utils.update_account_balances` over the `latest` map. -/
def update_account_balances (today : Date) : DB → LatestMap → Except Err DB
  | db, [] => .ok db
  | db, entry :: rest => do
      let recordDate := entry.2.1
      let balance := entry.2.2.1
      let rtiAccountId := entry.2.2.2
      match ← updateBalanceEntry today db recordDate balance rtiAccountId with
      | some db2 => update_account_balances today db2 rest
      | none => update_account_balances today db rest

/-- `mt940import_utils.insert_all_data_to_db`: the three phases in order.
The source returns `None`; the model returns the final store together with
the four loop counters (inserted and duplicate transactions, added and
already-existing history rows) so that the import summary is statable. -/
def insert_all_data_to_db (today : Date) (nameOracle : Option String → String)
    (db : DB) (data : List ParsedTx) :
    Except Err (DB × Nat × Nat × Nat × Nat) := do
  let (db, closingBalance, insertedTx, skippedTx) ←
    insert_transactions today nameOracle db data [] 0 0
  let (db, latest, addedHist, skippedHist) ←
    insert_account_history_entries today db closingBalance [] 0 0
  let db ← update_account_balances today db latest
  pure (db, insertedTx, skippedTx, addedHist, skippedHist)

/-- The loop body of `update_account_balances` iterated over a sequence of
balance updates `(record_date, balance)` for a single account — the
update sequences of the balance-invariant claim.  Returns the final store
and the accepted updates: the ISO record date and balance of every
`update_account` call that wrote. -/
def balanceUpdateRun (today : Date) (accountId : Nat) :
    DB → List (String × Rat) → List (String × Rat) →
    Except Err (DB × List (String × Rat))
  | db, [], accepted => .ok (db, accepted)
  | db, u :: rest, accepted => do
      let lastBalance ←
        match get_last_balance db today accountId with
        | .ok b => pure b
        | .error .noHistFound => pure (0 : Rat)
        | .error er => throw er
      let difference := round2 (ratSub u.2 lastBalance)
      let iso ← get_iso_date (some u.1)
      match update_account db accountId
          { widgetPosition := none
            name := ""
            number := ""
            balance := some u.2
            difference := some difference
            recordDate := iso
            changeDate := isoOfDate today } with
      | .ok db2 => balanceUpdateRun today accountId db2 rest (accepted ++ [(iso, u.2)])
      | .error .noAccountFound => throw Err.mt940
      | .error .noChanges => balanceUpdateRun today accountId db rest accepted
      | .error .recordTooOld => balanceUpdateRun today accountId db rest accepted
      | .error er => throw er

/-! ## Idempotence machinery -/

/-- Append-only growth of the store: every table of `t` extends the
corresponding table of `s`. -/
def DBExtends (s t : DB) : Prop :=
  (∃ l, t.accounts = s.accounts ++ l) ∧
  (∃ l, t.tts = s.tts ++ l) ∧
  (∃ l, t.cps = s.cps ++ l) ∧
  (∃ l, t.txs = s.txs ++ l) ∧
  (∃ l, t.hist = s.hist ++ l)

/-- Readiness of a parsed entry: every lookup performed by the resolution
phase of `insert_transactions` already succeeds on `db`, with the answers
recorded in `d`. -/
def EntryReady (db : DB) (e : ParsedTx) (d : TxData) : Prop :=
  get_account_id db false true false false none e.account none none = .ok d.accountId ∧
  computeBookingIso e.date e.bookingdate = .ok (d.date, d.bookingdate) ∧
  get_transaction_typ_id db true true e.ttName e.ttNumber = .ok d.ttId ∧
  get_counterparty_id db false true e.counterpartyName e.counterpartyAccount
    = .ok d.counterpartyId ∧
  d = { accountId := d.accountId
        date := d.date
        bookingdate := d.bookingdate
        ttId := d.ttId
        amount := e.amount
        purpose := e.purpose
        counterpartyId := d.counterpartyId
        categoryId := 1
        userComments := none
        displayedName := none }

/-- The closing-balance triples a parsed-entry list contributes, in order. -/
def cbListOf (data : List ParsedTx) : List CBTriple :=
  data.filterMap (fun e => e.closingBalance)

/-- Readiness of a closing-balance triple: the balance and the record date
convert, the account resolves, and the history snapshot for the converted
date is already present. -/
def TripleReady (db : DB) (c : CBTriple) : Prop :=
  (pyFloat c.2.2).isOk ∧
  ∃ i, get_account_id db false true false false none c.1 none none = .ok i ∧
    ∃ iso, get_iso_date (some c.2.1) = .ok iso ∧
      db.hist.any (fun r => r.accountId = i && r.recordDate = iso) = true

/-- The entries of a `latest` map, as a plain list. -/
def latestEntries (m : LatestMap) : List ((Option String) × (String × Rat × Nat)) := m

/-- Soundness of a `latest` map against the store: every entry carries the
id of an existing account row and a convertible record date. -/
def LatestOK (db : DB) (m : LatestMap) : Prop :=
  ∀ p ∈ latestEntries m,
    (∃ r ∈ db.accounts, r.id = p.2.2.2) ∧ (get_iso_date (some p.2.1)).isOk

/-- What the balance-update phase may do to the store: the other four
tables stay, and the account rows are rewritten in place keeping their id
and number. -/
def AccountsShape (s t : DB) : Prop :=
  t.tts = s.tts ∧ t.cps = s.cps ∧ t.txs = s.txs ∧ t.hist = s.hist ∧
  List.Forall₂ (fun a b => b.id = a.id ∧ b.number = a.number) s.accounts t.accounts

/-! ## Auxiliary definitions used by the claim proofs -/

/-- A `:60F:` block of the layout the sign claim describes: tag, an
arbitrary sign marker character, the six-digit date `230101`, the currency
`EUR`, the amount `100,00`. -/
def block60F (sign : Char) : String :=
  String.mk ([':', '6', '0', 'F', ':'] ++ [sign] ++ "230101EUR100,00".data)

/-- Soundness of one `latest` entry against a list of closing balances:
the entry's date and balance come from one of its key's triples (with the
account id the store resolves for that key), and its raw six-digit date
is lexicographically not below the date of any of the key's triples. -/
def LatestSound (db : DB) (cbs : List CBTriple) (key : Option String)
    (entry : String × Rat × Nat) : Prop :=
  (∃ c ∈ cbs, c.1 = key ∧ c.2.1 = entry.1 ∧ pyFloat c.2.2 = .ok entry.2.1 ∧
    get_account_id db false true false false none key none none = .ok entry.2.2) ∧
  (∀ c ∈ cbs, c.1 = key → pyLt entry.1 c.2.1 = false)

/-- The `last_balance` the loop body of `update_account_balances` works
with: `get_last_balance`, with the no-history error giving `0.0`. -/
def lastBalanceOrZero (db : DB) (today : Date) (accountId : Nat) : Rat :=
  match get_last_balance db today accountId with
  | .ok b => b
  | .error _ => 0

/-- Spec-side reading of "the balance of the immediately prior
AccountHistory snapshot of the account": the balance of the history row
of the account with the greatest record date strictly before the given
record date, `0.0` when there is none. -/
def specPriorSnapshotBalance (db : DB) (accountId : Nat) (recordDate : String) : Rat :=
  match maxByRecordDate (db.hist.filter
      (fun r => r.accountId = accountId && pyLt r.recordDate recordDate)) with
  | some r => r.balance
  | none => 0

/-- Shorthand for the stored-row property the balance-update invariant
maintains for a nonempty accepted list. -/
def AccRowState (today : Date) (accountId : Nat) (db0 db : DB)
    (acc : List (String × Rat)) : Prop :=
  acc ≠ [] → ∃ d b r, acc.getLast? = some (d, b) ∧
    db.accounts.find? (fun x => x.id = accountId) = some r ∧
    r.recordDate = some d ∧ r.balance = some b ∧
    r.difference = some (round2 (ratSub b (lastBalanceOrZero db0 today accountId))) ∧
    (∀ p ∈ acc, pyLt d p.1 = false)

/-! ## Fixtures of the idempotence claim -/

/-- Fixtures of the concrete idempotence runs: the run day. -/
def c1Day : Date := ⟨2023, 1, 31⟩

/-- Fixtures of the concrete idempotence runs: the naming collaborator. -/
def c1Oracle : Option String → String := fun _ => "Imported account"

/-- A parsed transaction with every natural-key field present, carrying a
closing balance. -/
def goodTx : ParsedTx :=
  { account := some "DE00ACCOUNT"
    openingBalance := some (mkRat 100 1)
    date := some "230101"
    bookingdate := some "0101"
    amount := some (mkRat 50 1)
    ttNumber := some "105"
    ttName := some "TRF"
    purpose := some "Rent"
    counterpartyAccount := some "DE11"
    counterpartyName := some "Bob"
    closingBalance := some (some "DE00ACCOUNT", "230131", "130.00") }

/-! ## Claim theorems -/

theorem ratNeg_eq (a : Rat) : ratNeg a = -a := by
  rw [ratNeg, Rat.mkRat_eq_divInt, Rat.divInt_eq_div]
  push_cast
  rw [neg_div, Rat.num_div_den a]

theorem ratSub_eq (a b : Rat) : ratSub a b = a - b := by
  have ha : ((a.den : ℚ)) ≠ 0 := by exact_mod_cast a.den_nz
  have hb : ((b.den : ℚ)) ≠ 0 := by exact_mod_cast b.den_nz
  rw [ratSub, Rat.mkRat_eq_divInt, Rat.divInt_eq_div]
  push_cast
  conv_rhs => rw [← Rat.num_div_den a, ← Rat.num_div_den b]
  rw [div_sub_div _ _ ha hb]
  ring_nf

theorem ratMul_eq (a b : Rat) : ratMul a b = a * b := by
  rw [ratMul, Rat.mkRat_eq_divInt, Rat.divInt_eq_div]
  push_cast
  conv_rhs => rw [← Rat.num_div_den a, ← Rat.num_div_den b]
  rw [div_mul_div_comm]

/-- Factorisation of the embedded date conversion through the spec-side
validity predicate and ISO rendering. -/
theorem get_iso_date_eq (s : String) :
    get_iso_date (some s) =
      if specValidYYMMDD s = true then .ok (specIsoOf s) else .error .valueError := by
  simp only [get_iso_date, specValidYYMMDD, specIsoOf]
  by_cases h6 : s.length = 6 <;> by_cases hd : pyIsDigit s = true
  · simp only [h6, hd, decide_eq_true_eq, Bool.true_and]
    simp only [eq_self_iff_true, if_true, decide_true_eq_true]
    split <;> simp_all
  · simp [h6, hd]
  · simp [h6, hd]
  · simp [h6, hd]

/-- C10: for every input string, `get_iso_date` returns an ISO date
`YYYY-MM-DD` exactly when the input is a six-digit numeric string `YYMMDD`
encoding a valid calendar date, mapping two-digit years 00-69 to
2000-2069 and 70-99 to 1970-1999 (the returned date being exactly the ISO
rendering of that calendar date); every other input — in particular any
input that is not exactly six digits — raises `ValueError`. -/
theorem c10_get_iso_date_contract (s : String) :
    (specValidYYMMDD s = true → get_iso_date (some s) = .ok (specIsoOf s)) ∧
    (specValidYYMMDD s = false → get_iso_date (some s) = .error .valueError) ∧
    ((∃ r, get_iso_date (some s) = .ok r) ↔ specValidYYMMDD s = true) := by
  rw [get_iso_date_eq]
  by_cases h : specValidYYMMDD s = true <;> simp [h]

/-- Witness for C10 at the concrete inputs `"230115"` (valid) and
`"23011"` (not six digits). -/
theorem c10_witness :
    get_iso_date (some "230115") = .ok "2023-01-15" ∧
    get_iso_date (some "23011") = .error .valueError :=
  ⟨((c10_get_iso_date_contract "230115").1 (by decide)).trans (by decide),
   (c10_get_iso_date_contract "23011").2.1 (by decide)⟩

/-- C5 (code bug): on a `:60F:` block laid out as tag, sign marker,
six-digit date, three-letter currency, amount, the parser reads the sign
marker at offset 6 — which is always the first date digit, never `D` — so
the opening balance is never negated: with the sign marker `D` the stored
opening balance is the positive `100`, identical to the `C` result and
different from the `-100` the claim requires for `D`. -/
theorem c5_opening_balance_sign_never_applied :
    parse_block_step ({}, []) (block60F 'D')
      = .ok ({ openingBalance := some (mkRat 100 1) }, []) ∧
    parse_block_step ({}, []) (block60F 'C')
      = .ok ({ openingBalance := some (mkRat 100 1) }, []) ∧
    (mkRat 100 1 : Rat) ≠ mkRat (-100) 1 :=
  ⟨by decide, by decide, by decide⟩

/-- C6 (code bug): the booking date year is rebuilt from the first two
characters of the ISO transaction date — the century, not the two-digit
year — so for the `:61:` fields date `230115`, booking date `0114` the
persisted pair is `2023-01-15` / `2020-01-14`: the booking date year 2020
differs from the transaction date year 2023, contradicting the claim that
the booking date inherits its year from the transaction date. -/
theorem c6_bookingdate_century_slip :
    computeBookingIso (some "230115") (some "0114") = .ok ("2023-01-15", "2020-01-14") ∧
    pyTake "2023-01-15" 4 ≠ pyTake "2020-01-14" 4 := by
  constructor
  · rfl
  · decide

/-- C7 (code bug): a `:61:` block too short for the fixed offsets makes
the parser raise the untyped built-in `IndexError` (at `block[10]`), and a
`:60F:` block too short raises the untyped built-in `ValueError` (from
`float('')`) — not the dedicated `DatabaseMT940Error` parse failure the
claim requires (the parser never raises that type). -/
theorem c7_malformed_block_untyped_errors :
    parse_block [":61:"] = .error .indexError ∧
    parse_block [":60F:"] = .error .valueError ∧
    Err.indexError ≠ Err.mt940 ∧ Err.valueError ≠ Err.mt940 := by
  refine ⟨rfl, rfl, by decide, by decide⟩

/-- Reduction of a bind on an `ok` value of the error monad. -/
theorem exceptBind_ok {α β : Type} (a : α) (f : α → Except Err β) :
    (Except.ok a >>= f) = f a := rfl

/-- Reduction of a bind on an `error` value of the error monad. -/
theorem exceptBind_err {α β : Type} (e : Err) (f : α → Except Err β) :
    ((Except.error e : Except Err α) >>= f) = .error e := rfl

/-- Transitivity of the code-point lexicographic comparison. -/
theorem lexLt_trans : ∀ (a b c : List Char),
    lexLt a b = true → lexLt b c = true → lexLt a c = true := by
  intro a
  induction a with
  | nil =>
      intro b c hab hbc
      cases c with
      | nil =>
          cases b with
          | nil => exact absurd hab (by simp [lexLt])
          | cons y ys => exact absurd hbc (by simp [lexLt])
      | cons z zs => simp [lexLt]
  | cons x xs ih =>
      intro b c hab hbc
      cases b with
      | nil => exact absurd hab (by simp [lexLt])
      | cons y ys =>
          cases c with
          | nil => exact absurd hbc (by simp [lexLt])
          | cons z zs =>
              simp only [lexLt] at hab hbc ⊢
              by_cases hxy : x.toNat < y.toNat
              · by_cases hyz : y.toNat < z.toNat
                · rw [if_pos (Nat.lt_trans hxy hyz)]
                · rw [if_neg hyz] at hbc
                  by_cases hzy : z.toNat < y.toNat
                  · rw [if_pos hzy] at hbc
                    exact absurd hbc (by simp)
                  · have heq : y.toNat = z.toNat :=
                      Nat.le_antisymm (Nat.le_of_not_lt hzy) (Nat.le_of_not_lt hyz)
                    rw [if_pos (heq ▸ hxy)]
              · rw [if_neg hxy] at hab
                by_cases hyx : y.toNat < x.toNat
                · rw [if_pos hyx] at hab
                  exact absurd hab (by simp)
                · rw [if_neg hyx] at hab
                  have hxyeq : x.toNat = y.toNat :=
                    Nat.le_antisymm (Nat.le_of_not_lt hyx) (Nat.le_of_not_lt hxy)
                  by_cases hyz : y.toNat < z.toNat
                  · rw [if_pos (hxyeq ▸ hyz)]
                  · rw [if_neg hyz] at hbc
                    by_cases hzy : z.toNat < y.toNat
                    · rw [if_pos hzy] at hbc
                      exact absurd hbc (by simp)
                    · rw [if_neg hzy] at hbc
                      have hyzeq : y.toNat = z.toNat :=
                        Nat.le_antisymm (Nat.le_of_not_lt hzy) (Nat.le_of_not_lt hyz)
                      have hxz : ¬ x.toNat < z.toNat := by
                        rw [hxyeq, hyzeq]
                        exact Nat.lt_irrefl _
                      have hzx : ¬ z.toNat < x.toNat := by
                        rw [hxyeq, hyzeq]
                        exact Nat.lt_irrefl _
                      rw [if_neg hxz, if_neg hzx]
                      exact ih ys zs hab hbc

/-- Irreflexivity of the code-point lexicographic comparison. -/
theorem lexLt_irrefl : ∀ l : List Char, lexLt l l = false := by
  intro l
  induction l with
  | nil => rfl
  | cons x xs ih => simp [lexLt, Nat.lt_irrefl, ih]

/-- Transitivity of the Python string comparison. -/
theorem pyLt_trans (a b c : String) :
    pyLt a b = true → pyLt b c = true → pyLt a c = true :=
  lexLt_trans a.data b.data c.data

/-- Dominance transfer: whatever is not below `cur` is, after `cur` is
strictly raised to `new`, not below `new` either. -/
theorem pyLt_dominance {cur new d : String}
    (hcd : pyLt cur d = false) (hcn : pyLt cur new = true) :
    pyLt new d = false := by
  cases h : pyLt new d with
  | false => rfl
  | true => exact absurd (pyLt_trans cur new d hcn h) (by simp [hcd])

/-- Dict lookup after assignment, same key. -/
theorem alistFind_set_self (m : LatestMap) (k : Option String) (v : String × Rat × Nat) :
    alistFind (alistSet m k v) k = some v := by
  induction m with
  | nil => simp [alistSet, alistFind]
  | cons p rest ih =>
      by_cases h : p.1 = k
      · simp [alistSet, alistFind, h]
      · simp only [alistSet, if_neg h]
        simp only [alistFind, List.find?]
        rw [show (decide (p.1 = k)) = false from by simp [h]]
        exact ih

/-- Dict lookup after assignment, different key. -/
theorem alistFind_set_ne (m : LatestMap) (k k2 : Option String)
    (v : String × Rat × Nat) (h : k2 ≠ k) :
    alistFind (alistSet m k v) k2 = alistFind m k2 := by
  induction m with
  | nil => simp [alistSet, alistFind, List.find?, Ne.symm h]
  | cons p rest ih =>
      by_cases hp : p.1 = k
      · simp only [alistSet, if_pos hp]
        simp only [alistFind, List.find?]
        rw [show (decide (k = k2)) = false from by simp [Ne.symm h],
          show (decide (p.1 = k2)) = false from by simp [hp, Ne.symm h]]
      · simp only [alistSet, if_neg hp]
        simp only [alistFind, List.find?]
        cases hpk : decide (p.1 = k2) with
        | true => rfl
        | false => exact ih

/-- Assignment never removes a key. -/
theorem alistFind_set_isSome (m : LatestMap) (k k2 : Option String)
    (v e : String × Rat × Nat) (h : alistFind m k2 = some e) :
    ∃ e2, alistFind (alistSet m k v) k2 = some e2 := by
  by_cases hk : k2 = k
  · subst hk
    exact ⟨v, alistFind_set_self m k2 v⟩
  · rw [alistFind_set_ne m k k2 v hk]
    exact ⟨e, h⟩

/-- `add_account_history` never touches `tbl_Account`. -/
theorem add_account_history_accounts (db db2 : DB) (today : Date) (accountId : Nat)
    (balance : Rat) (recordDate changeDate : String) (manualEntry : Bool)
    (h : add_account_history db today accountId balance recordDate changeDate manualEntry
      = .ok db2) : db2.accounts = db.accounts := by
  rw [add_account_history] at h
  split at h
  · exact absurd h (by simp)
  · simp at h
    rw [← h]

/-- `get_account_id` only reads `tbl_Account`. -/
theorem get_account_id_congr (db db2 : DB) (h : db.accounts = db2.accounts)
    (supName supNum supBal supDiff : Bool) (vName vNum : Option String)
    (vBal vDiff : Option Rat) :
    get_account_id db supName supNum supBal supDiff vName vNum vBal vDiff
      = get_account_id db2 supName supNum supBal supDiff vName vNum vBal vDiff := by
  rw [get_account_id, get_account_id, h]

/-- C8 counterexample: on a `:86:` block whose `?32` subfield is
`ACME Impo` and whose `?33` subfield is `rt GmbH`, the parsed counterparty
name is the space-joined `"ACME Impo rt GmbH"`, which is not the claimed
`"ACME Import GmbH"`. -/
theorem c8_counterexample :
    (parse_block [":86:105?00TRF?20SVWZ+X?31DE1?32ACME Impo?33rt GmbH?34Z",
        ":62F:C230131EUR130,00X"]).map (fun l => l.map (fun t => t.counterpartyName))
      = .ok [some "ACME Impo rt GmbH"] ∧
    ("ACME Impo rt GmbH" : String) ≠ "ACME Import GmbH" := by
  refine ⟨rfl, by decide⟩

/-- C8 (amended): with `?32` = `ACME Impo` and `?33` = `rt GmbH` the
parser joins the two captured substrings with a single space, yielding
`"ACME Impo rt GmbH"`; when `?33` is the final subfield of the block, the
end-of-capture `find` returns `-1` and the slice additionally drops the
last character, yielding `"ACME Impo rt Gmb"`. -/
theorem c8_counterparty_space_join :
    (parse_block [":86:105?00TRF?20SVWZ+X?31DE1?32ACME Impo?33rt GmbH?34Z",
        ":62F:C230131EUR130,00X"]).map (fun l => l.map (fun t => t.counterpartyName))
      = .ok [some ("ACME Impo" ++ " " ++ "rt GmbH")] ∧
    (parse_block [":86:105?00TRF?20SVWZ+X?31DE1?32ACME Impo?33rt GmbH",
        ":62F:C230131EUR130,00X"]).map (fun l => l.map (fun t => t.counterpartyName))
      = .ok [some "ACME Impo rt Gmb"] := by
  refine ⟨rfl, rfl⟩

/-- C3: `add_transaction` raises `AlreadyExistsError` exactly when the
store holds a row agreeing on the eight natural-key fields (account, date,
bookingdate, type, amount, purpose, counterparty, category); the
user-comments and displayed-name fields of the candidate are irrelevant
to the outcome; on a duplicate nothing is inserted; every call is the
duplicate error, a pure append of the new row (when amount and purpose
are non-NULL), or the generic database error of the INSERT rejecting a
NULL amount or purpose under the schema's `NOT NULL` constraints; and
inside `insert_transactions` a duplicate is counted into the skipped
counter and the loop continues on the unchanged store instead of
raising. -/
theorem c3_add_transaction_natural_key (db : DB) (d : TxData) :
    (add_transaction db d = .error .alreadyExists ↔
      ∃ r ∈ db.txs, txKeyMatches d r = true) ∧
    (∀ u v, add_transaction db { d with userComments := u, displayedName := v }
        = .error .alreadyExists ↔
      add_transaction db d = .error .alreadyExists) ∧
    (∀ db2, add_transaction db d = .ok db2 →
      db2 = { db with txs := db.txs ++ [txRowOf d] }) ∧
    (add_transaction db d = .error .alreadyExists ∨
      (d.amount ≠ none ∧ d.purpose ≠ none ∧ ∃ db2, add_transaction db d = .ok db2) ∨
      ((d.amount = none ∨ d.purpose = none) ∧
        add_transaction db d = .error .dbError)) ∧
    (∀ today f e rest cbs ins skip db1 d1 cb,
      resolveEntry today f db e = .ok (db1, d1, cb) →
      add_transaction db1 d1 = .error .alreadyExists →
      insert_transactions today f db (e :: rest) cbs ins skip
        = insert_transactions today f db1 rest (cbs ++ cb) ins (skip + 1)) := by
  have hiffAll : ∀ d2 : TxData, add_transaction db d2 = .error .alreadyExists ↔
      db.txs.any (txKeyMatches d2) = true := by
    intro d2
    constructor
    · intro h2
      rw [add_transaction] at h2
      split at h2
      · assumption
      · split at h2
        · exact absurd h2 (by simp)
        · exact absurd h2 (by simp)
    · intro h2
      rw [add_transaction, if_pos h2]
  refine ⟨?_, ?_, ?_, ?_, ?_⟩
  · exact (hiffAll d).trans List.any_eq_true
  · intro u v
    have hsame : db.txs.any
        (txKeyMatches { d with userComments := u, displayedName := v })
        = db.txs.any (txKeyMatches d) := rfl
    rw [hiffAll, hiffAll, hsame]
  · intro db2 hok
    rw [add_transaction] at hok
    split at hok
    · exact absurd hok (by simp)
    · split at hok
      · exact absurd hok (by simp)
      · injection hok with hok
        exact hok.symm
  · cases h : db.txs.any (txKeyMatches d) with
    | true =>
        left
        rw [add_transaction, if_pos h]
    | false =>
        have hne : ¬(db.txs.any (txKeyMatches d) = true) := by
          rw [h]
          simp
        cases ha : d.amount with
        | none =>
            refine Or.inr (Or.inr ⟨Or.inl rfl, ?_⟩)
            have hg : (d.amount.isNone || d.purpose.isNone) = true := by
              rw [ha]
              rfl
            rw [add_transaction, if_neg hne, if_pos hg]
        | some a =>
            cases hp : d.purpose with
            | none =>
                refine Or.inr (Or.inr ⟨Or.inr rfl, ?_⟩)
                have hg : (d.amount.isNone || d.purpose.isNone) = true := by
                  rw [hp]
                  simp
                rw [add_transaction, if_neg hne, if_pos hg]
            | some p =>
                refine Or.inr (Or.inl ⟨by simp, by simp, ?_⟩)
                refine ⟨{ db with txs := db.txs ++ [txRowOf d] }, ?_⟩
                have hg : ¬((d.amount.isNone || d.purpose.isNone) = true) := by
                  rw [ha, hp]
                  simp
                rw [add_transaction, if_neg hne, if_neg hg]
  · intro today f e rest cbs ins skip db1 d1 cb hres hdup
    show (do
        let (db, d, cb2) ← resolveEntry today f db e
        let cbs := cbs ++ cb2
        match add_transaction db d with
        | .ok db2 => insert_transactions today f db2 rest cbs (ins + 1) skip
        | .error .alreadyExists => insert_transactions today f db rest cbs ins (skip + 1)
        | .error .dbError => throw Err.mt940
        | .error er => throw er) = _
    rw [hres, exceptBind_ok]
    change (match add_transaction db1 d1 with
      | Except.ok db2 => insert_transactions today f db2 rest (cbs ++ cb) (ins + 1) skip
      | Except.error Err.alreadyExists => insert_transactions today f db1 rest (cbs ++ cb) ins (skip + 1)
      | Except.error Err.dbError => throw Err.mt940
      | Except.error er => throw er) = _
    rw [hdup]

/-- C9: frame condition of `update_account`: a successful call rewrites,
in place, exactly the rows with the target id, leaving every other table
and row untouched; per column, an empty-string (or, for int/float
columns, empty) new value never changes the column and a supplied value
is written only when it differs from the stored one; when the row is
found, the record date is not stale and no supplied value differs, the
call raises `NoChangesDetectedError` and the store is unchanged; in
particular the reconciliation call shape — empty widget position, name
and number — preserves every row's position, name and number. -/
theorem c9_update_account_frame (db : DB) (accountId : Nat) (u : AccountUpdate) :
    (∀ db2, update_account db accountId u = .ok db2 →
      db2.txs = db.txs ∧ db2.hist = db.hist ∧ db2.tts = db.tts ∧ db2.cps = db.cps ∧
      db2.accounts = db.accounts.map (fun x => if x.id = accountId then applyUpd u x else x)) ∧
    (∀ r : AccountRow,
      (u.widgetPosition = none → (applyUpd u r).widgetPosition = r.widgetPosition) ∧
      (u.name = "" → (applyUpd u r).name = r.name) ∧
      (u.number = "" → (applyUpd u r).number = r.number) ∧
      (u.balance = none → (applyUpd u r).balance = r.balance) ∧
      (u.difference = none → (applyUpd u r).difference = r.difference) ∧
      (u.recordDate = "" → (applyUpd u r).recordDate = r.recordDate) ∧
      (u.changeDate = "" → (applyUpd u r).changeDate = r.changeDate) ∧
      (updChanges u r = false → applyUpd u r = r)) ∧
    (∀ r, db.accounts.find? (fun x => x.id = accountId) = some r →
      (∀ cur, r.recordDate = some cur → pyLt u.recordDate cur = false) →
      updChanges u r = false →
      update_account db accountId u = .error .noChanges) ∧
    (u.widgetPosition = none → u.name = "" → u.number = "" →
      ∀ db2, update_account db accountId u = .ok db2 →
        db2.accounts.map (fun x => (x.id, x.widgetPosition, x.name, x.number))
          = db.accounts.map (fun x => (x.id, x.widgetPosition, x.name, x.number))) := by
  have happly : ∀ r : AccountRow,
      (u.widgetPosition = none → (applyUpd u r).widgetPosition = r.widgetPosition) ∧
      (u.name = "" → (applyUpd u r).name = r.name) ∧
      (u.number = "" → (applyUpd u r).number = r.number) ∧
      (u.balance = none → (applyUpd u r).balance = r.balance) ∧
      (u.difference = none → (applyUpd u r).difference = r.difference) ∧
      (u.recordDate = "" → (applyUpd u r).recordDate = r.recordDate) ∧
      (u.changeDate = "" → (applyUpd u r).changeDate = r.changeDate) ∧
      (updChanges u r = false → applyUpd u r = r) := by
    intro r
    refine ⟨?_, ?_, ?_, ?_, ?_, ?_, ?_, ?_⟩
    · intro h
      simp [applyUpd, h]
    · intro h
      simp [applyUpd, h]
    · intro h
      simp [applyUpd, h]
    · intro h
      simp [applyUpd, h]
    · intro h
      simp [applyUpd, h]
    · intro h
      simp [applyUpd, h]
    · intro h
      simp [applyUpd, h]
    · intro h
      simp only [updChanges, Bool.or_eq_false_iff] at h
      obtain ⟨⟨⟨⟨⟨⟨h1, h2⟩, h3⟩, h4⟩, h5⟩, h6⟩, h7⟩ := h
      cases r with
      | mk idf wpf nmf numf balf difff rdf cdf =>
          simp only [applyUpd, AccountRow.mk.injEq]
          refine ⟨by trivial, ?_, ?_, ?_, ?_, ?_, ?_, ?_⟩
          · cases hw : u.widgetPosition with
            | none => simp
            | some v =>
                rw [hw] at h1
                simp only [Bool.not_eq_true'] at h1
                simp_all
          · by_cases hn : u.name = "" <;> simp_all
          · by_cases hn : u.number = "" <;> simp_all
          · cases hb : u.balance with
            | none => simp
            | some v =>
                rw [hb] at h4
                simp only [Bool.not_eq_true'] at h4
                simp_all
          · cases hd : u.difference with
            | none => simp
            | some v =>
                rw [hd] at h5
                simp only [Bool.not_eq_true'] at h5
                simp_all
          · by_cases hr : u.recordDate = "" <;> simp_all
          · by_cases hc : u.changeDate = "" <;> simp_all
  have hok : ∀ db2, update_account db accountId u = .ok db2 →
      db2 = { db with accounts := db.accounts.map (fun x => if x.id = accountId then applyUpd u x else x) } := by
    intro db2 h
    simp only [update_account] at h
    split at h
    · simp at h
    · split at h
      · simp at h
      · split at h
        · simp at h
        · simp at h
          exact h.symm
  refine ⟨?_, happly, ?_, ?_⟩
  · intro db2 h
    have := hok db2 h
    subst this
    exact ⟨rfl, rfl, rfl, rfl, rfl⟩
  · intro r hf hnostale hch
    have hstale : (match r.recordDate with
        | some cur => pyLt u.recordDate cur
        | none => false) = false := by
      cases hrd : r.recordDate with
      | none => rfl
      | some cur => exact hnostale cur hrd
    simp only [update_account]
    split
    · next heq =>
        rw [hf] at heq
        exact Option.noConfusion heq
    · next r2 heq =>
        rw [hf] at heq
        injection heq with h2
        subst h2
        rw [hstale, hch]
        simp
  · intro hwp hn hnum db2 h
    have := hok db2 h
    subst this
    simp only [List.map_map]
    apply List.map_congr_left
    intro x _
    by_cases hx : x.id = accountId
    · have h2 := happly x
      have e1 := h2.1 hwp
      have e2 := h2.2.1 hn
      have e3 := h2.2.2.1 hnum
      simp only [Function.comp_apply]
      rw [if_pos hx, e1, e2, e3]
      rfl
    · simp [Function.comp, hx]

/-- Witness for C3: on a one-row store the duplicate outcome fires for a
tuple agreeing on the eight natural-key fields though both rows differ in
the comment and display-name fields. -/
theorem c3_witness :
    add_transaction
      { txs := [{ accountId := 1, date := "2023-01-01", bookingdate := "2023-01-01",
                  ttId := 1, amount := some (mkRat 50 1), purpose := some "Rent",
                  counterpartyId := 1, categoryId := 1,
                  userComments := some "x", displayedName := some "y" }] }
      { accountId := 1, date := "2023-01-01", bookingdate := "2023-01-01",
        ttId := 1, amount := some (mkRat 50 1), purpose := some "Rent",
        counterpartyId := 1, categoryId := 1,
        userComments := none, displayedName := none } = .error .alreadyExists := by
  apply (c3_add_transaction_natural_key _ _).1.mpr
  refine ⟨{ accountId := 1, date := "2023-01-01", bookingdate := "2023-01-01",
            ttId := 1, amount := some (mkRat 50 1), purpose := some "Rent",
            counterpartyId := 1, categoryId := 1,
            userComments := some "x", displayedName := some "y" }, ?_, ?_⟩
  · exact List.mem_singleton.mpr rfl
  · decide

/-- Witness for C9: a call on a one-row store in which every supplied
value equals the stored one raises `NoChangesDetectedError`. -/
theorem c9_witness :
    update_account
      { accounts := [{ id := 1, widgetPosition := 0, name := some "A",
                       number := some "N", balance := some (mkRat 5 1),
                       difference := some 0, recordDate := none,
                       changeDate := none }] }
      1
      { widgetPosition := none, name := "", number := "",
        balance := some (mkRat 5 1), difference := some 0,
        recordDate := "", changeDate := "" } = .error .noChanges := by
  apply (c9_update_account_frame _ 1 _).2.2.1
    { id := 1, widgetPosition := 0, name := some "A", number := some "N",
      balance := some (mkRat 5 1), difference := some 0,
      recordDate := none, changeDate := none }
  · decide
  · intro cur h
    exact Option.noConfusion h
  · decide

/-- Reduction of `pure` in the error monad. -/
theorem exceptPure {α : Type} (a : α) : (pure a : Except Err α) = .ok a := rfl

/-- Reduction of `throw` in the error monad. -/
theorem exceptThrow {α : Type} (e : Err) : (throw e : Except Err α) = .error e := rfl

/-- `LatestSound` only depends on the store through `tbl_Account`. -/
theorem latestSound_congr (db db2 : DB) (h : db.accounts = db2.accounts)
    (cbs : List CBTriple) (key : Option String) (entry : String × Rat × Nat)
    (hs : LatestSound db cbs key entry) : LatestSound db2 cbs key entry := by
  obtain ⟨⟨c, hc, h1, h2, h3, h4⟩, hdom⟩ := hs
  exact ⟨⟨c, hc, h1, h2, h3, (get_account_id_congr db db2 h _ _ _ _ _ _ _ _) ▸ h4⟩, hdom⟩

/-- Loop invariant of the `latest` dictionary in
`insert_account_history_entries`: starting from a dictionary sound for the
already-processed triples (and containing every processed key), a
successful run over the remaining triples produces a dictionary sound for
all triples and containing every key. -/
theorem latest_inv (today : Date) :
    ∀ (cbs done : List CBTriple) (db db2 : DB) (latest L : LatestMap) (a s a2 s2 : Nat),
    insert_account_history_entries today db cbs latest a s = .ok (db2, L, a2, s2) →
    (∀ key entry, alistFind latest key = some entry → LatestSound db done key entry) →
    (∀ c ∈ done, ∃ e, alistFind latest c.1 = some e) →
    (∀ key entry, alistFind L key = some entry → LatestSound db (done ++ cbs) key entry) ∧
    (∀ c ∈ done ++ cbs, ∃ e, alistFind L c.1 = some e) := by
  intro cbs
  induction cbs with
  | nil =>
      intro done db db2 latest L a s a2 s2 hrun hsound hcomp
      simp only [insert_account_history_entries] at hrun
      simp at hrun
      obtain ⟨_, hL, _, _⟩ := hrun
      subst hL
      simp only [List.append_nil]
      exact ⟨hsound, hcomp⟩
  | cons c rest ih =>
      intro done db db2 latest L a s a2 s2 hrun hsound hcomp
      simp only [insert_account_history_entries] at hrun
      cases hacc : get_account_id db false true false false none c.1 none none with
      | error er =>
          rw [hacc] at hrun
          cases er <;> simp [exceptThrow, exceptBind_err] at hrun
      | ok rtiId =>
          rw [hacc] at hrun
          simp only [exceptPure, exceptBind_ok] at hrun
          cases hbal : pyFloat c.2.2 with
          | error er =>
              rw [hbal] at hrun
              simp [exceptBind_err] at hrun
          | ok bal =>
              rw [hbal] at hrun
              simp only [exceptBind_ok] at hrun
              cases hiso : get_iso_date (some c.2.1) with
              | error er =>
                  rw [hiso] at hrun
                  simp [exceptBind_err] at hrun
              | ok iso =>
                  rw [hiso] at hrun
                  simp only [exceptBind_ok] at hrun
                  -- name the updated dictionary
                  set latest2 := (match alistFind latest c.1 with
                    | none => alistSet latest c.1 (c.2.1, bal, rtiId)
                    | some cur =>
                        if pyLt cur.1 c.2.1 then
                          alistSet latest c.1 (c.2.1, bal, rtiId)
                        else latest) with hlat2
                  have hl2cases : (alistFind latest c.1 = none ∧
                        latest2 = alistSet latest c.1 (c.2.1, bal, rtiId)) ∨
                      (∃ cur, alistFind latest c.1 = some cur ∧
                        ((pyLt cur.1 c.2.1 = true ∧
                          latest2 = alistSet latest c.1 (c.2.1, bal, rtiId)) ∨
                         (pyLt cur.1 c.2.1 = false ∧ latest2 = latest))) := by
                    rw [hlat2]
                    cases hcur : alistFind latest c.1 with
                    | none => exact Or.inl ⟨rfl, rfl⟩
                    | some cur =>
                        cases hlt : pyLt cur.1 c.2.1 with
                        | true =>
                            refine Or.inr ⟨cur, rfl, Or.inl ⟨hlt, ?_⟩⟩
                            simp [hlt]
                        | false =>
                            refine Or.inr ⟨cur, rfl, Or.inr ⟨hlt, ?_⟩⟩
                            simp [hlt]
                  have hsound2 : ∀ key entry, alistFind latest2 key = some entry →
                      LatestSound db (done ++ [c]) key entry := by
                    intro key entry hfind
                    have hold : ∀ e2, alistFind latest key = some e2 →
                        e2 = entry → LatestSound db (done ++ [c]) key e2 →
                        LatestSound db (done ++ [c]) key entry := by
                      intro e2 _ he2 hs
                      rw [← he2]
                      exact hs
                    have hfromold : alistFind latest key = some entry →
                        (∀ c2 ∈ [c], c2.1 = key → pyLt entry.1 c2.2.1 = false) →
                        LatestSound db (done ++ [c]) key entry := by
                      intro h0 hdom1
                      have hs0 := hsound key entry h0
                      constructor
                      · obtain ⟨c0, hc0, h1, h2, h3, h4⟩ := hs0.1
                        exact ⟨c0, List.mem_append.mpr (Or.inl hc0), h1, h2, h3, h4⟩
                      · intro c2 hc2 hkeq
                        rcases List.mem_append.mp hc2 with hdone | hrest
                        · exact hs0.2 c2 hdone hkeq
                        · exact hdom1 c2 hrest hkeq
                    by_cases hkey : key = c.1
                    · rcases hl2cases with ⟨hcur, hl2⟩ | ⟨cur, hcur, ⟨hlt, hl2⟩ | ⟨hlt, hl2⟩⟩
                      · rw [hl2, hkey, alistFind_set_self] at hfind
                        injection hfind with he
                        subst he
                        subst hkey
                        constructor
                        · exact ⟨c, by simp, rfl, rfl, hbal, hacc⟩
                        · intro c2 hc2 hkeq
                          rcases List.mem_append.mp hc2 with hdone | hrest
                          · obtain ⟨e, he⟩ := hcomp c2 hdone
                            rw [hkeq] at he
                            rw [he] at hcur
                            exact Option.noConfusion hcur
                          · rw [List.mem_singleton.mp hrest]
                            simp [pyLt, lexLt_irrefl]
                      · rw [hl2, hkey, alistFind_set_self] at hfind
                        injection hfind with he
                        subst he
                        subst hkey
                        have hscur := hsound _ cur hcur
                        constructor
                        · exact ⟨c, by simp, rfl, rfl, hbal, hacc⟩
                        · intro c2 hc2 hkeq
                          rcases List.mem_append.mp hc2 with hdone | hrest
                          · exact pyLt_dominance (hscur.2 c2 hdone hkeq) hlt
                          · rw [List.mem_singleton.mp hrest]
                            simp [pyLt, lexLt_irrefl]
                      · rw [hl2] at hfind
                        subst hkey
                        have hecur : cur = entry := by
                          rw [hfind] at hcur
                          injection hcur with hv
                          exact hv.symm
                        subst hecur
                        exact hfromold hfind (by
                          intro c2 hc2 hkeq
                          rw [List.mem_singleton.mp hc2]
                          exact hlt)
                    · have hfind0 : alistFind latest key = some entry := by
                        rcases hl2cases with ⟨hcur, hl2⟩ | ⟨cur, hcur, ⟨hlt, hl2⟩ | ⟨hlt, hl2⟩⟩
                        · rw [hl2, alistFind_set_ne latest c.1 key _ hkey] at hfind
                          exact hfind
                        · rw [hl2, alistFind_set_ne latest c.1 key _ hkey] at hfind
                          exact hfind
                        · rw [hl2] at hfind
                          exact hfind
                      exact hfromold hfind0 (by
                        intro c2 hc2 hkeq
                        exact absurd ((List.mem_singleton.mp hc2) ▸ hkeq).symm hkey)
                  have hcomp2 : ∀ c2 ∈ done ++ [c], ∃ e, alistFind latest2 c2.1 = some e := by
                    intro c2 hc2
                    rcases List.mem_append.mp hc2 with hdone | hrest
                    · obtain ⟨e, he⟩ := hcomp c2 hdone
                      rcases hl2cases with ⟨hcur, hl2⟩ | ⟨cur, hcur, ⟨hlt, hl2⟩ | ⟨hlt, hl2⟩⟩
                      · rw [hl2]
                        exact alistFind_set_isSome latest c.1 c2.1 _ e he
                      · rw [hl2]
                        exact alistFind_set_isSome latest c.1 c2.1 _ e he
                      · rw [hl2]
                        exact ⟨e, he⟩
                    · rw [List.mem_singleton.mp hrest]
                      rcases hl2cases with ⟨hcur, hl2⟩ | ⟨cur, hcur, ⟨hlt, hl2⟩ | ⟨hlt, hl2⟩⟩
                      · rw [hl2]
                        exact ⟨_, alistFind_set_self latest c.1 _⟩
                      · rw [hl2]
                        exact ⟨_, alistFind_set_self latest c.1 _⟩
                      · rw [hl2]
                        exact ⟨cur, hcur⟩
                  cases hadd : add_account_history db today rtiId bal iso (isoOfDate today) false with
                  | ok db3 =>
                      rw [hadd] at hrun
                      have haccs : db3.accounts = db.accounts :=
                        add_account_history_accounts db db3 today rtiId bal iso (isoOfDate today) false hadd
                      have := ih (done ++ [c]) db3 db2 latest2 L (a + 1) s a2 s2 hrun
                        (fun key entry hf => latestSound_congr db db3 haccs.symm _ _ _ (hsound2 key entry hf))
                        hcomp2
                      rw [List.append_assoc] at this
                      simp only [List.singleton_append] at this
                      exact ⟨fun key entry hf =>
                          latestSound_congr db3 db haccs _ _ _ (this.1 key entry hf),
                        this.2⟩
                  | error er =>
                      rw [hadd] at hrun
                      cases er with
                      | existingHist =>
                          have := ih (done ++ [c]) db db2 latest2 L a (s + 1) a2 s2 hrun
                            hsound2 hcomp2
                          rw [List.append_assoc] at this
                          simp only [List.singleton_append] at this
                          exact this
                      | valueError => simp [exceptThrow] at hrun
                      | indexError => simp [exceptThrow] at hrun
                      | typeError => simp [exceptThrow] at hrun
                      | dbError => simp [exceptThrow] at hrun
                      | alreadyExists => simp [exceptThrow] at hrun
                      | noHistFound => simp [exceptThrow] at hrun
                      | noAccountFound => simp [exceptThrow] at hrun
                      | noChanges => simp [exceptThrow] at hrun
                      | recordTooOld => simp [exceptThrow] at hrun
                      | mt940 => simp [exceptThrow] at hrun

/-- C4 counterexample: with two closing balances for account `A` dated
`690101` (calendar year 2069) and `700101` (calendar year 1970), the
`latest` map built by `insert_account_history_entries` keeps `700101` —
the lexicographically greater six-digit string — although under the
persisted two-digit-year convention `690101` is the later calendar date,
as the ISO conversions of the two dates show. -/
theorem c4_counterexample :
    (insert_account_history_entries ⟨2023, 6, 15⟩
        { accounts := [{ id := 1, widgetPosition := 0, name := some "A",
                         number := some "A", balance := some 0, difference := some 0,
                         recordDate := none, changeDate := none }] }
        [(some "A", "690101", "10"), (some "A", "700101", "20")] [] 0 0).map
        (fun r => r.2.1)
      = .ok [(some "A", ("700101", mkRat 20 1, 1))] ∧
    get_iso_date (some "690101") = .ok "2069-01-01" ∧
    get_iso_date (some "700101") = .ok "1970-01-01" ∧
    pyLt "1970-01-01" "2069-01-01" = true ∧
    ("700101" : String) ≠ "690101" := by
  refine ⟨rfl, rfl, rfl, rfl, by decide⟩

/-- C4 (amended): for every closing-balance list, the `latest` map built
by `insert_account_history_entries` assigns to each account number an
entry drawn from that account's triples (its raw date, its parsed
balance, and the account id the store resolves) whose six-digit date
string is lexicographically greatest among the account's triples — raw
string order, which agrees with calendar order only within one century
range of the two-digit-year convention — and contains an entry for every
account number occurring in the list. -/
theorem c4_latest_map_lexicographic (today : Date) (db db2 : DB)
    (cbs : List CBTriple) (L : LatestMap) (a s : Nat)
    (hrun : insert_account_history_entries today db cbs [] 0 0 = .ok (db2, L, a, s)) :
    (∀ key entry, alistFind L key = some entry →
      (∃ c ∈ cbs, c.1 = key ∧ c.2.1 = entry.1 ∧ pyFloat c.2.2 = .ok entry.2.1 ∧
        get_account_id db false true false false none key none none = .ok entry.2.2) ∧
      (∀ c ∈ cbs, c.1 = key → pyLt entry.1 c.2.1 = false)) ∧
    (∀ c ∈ cbs, ∃ e, alistFind L c.1 = some e) := by
  have h := latest_inv today cbs [] db db2 [] L 0 0 a s hrun
    (fun key entry hf => by simp [alistFind, List.find?] at hf)
    (fun c hc => absurd hc (List.not_mem_nil c))
  rw [List.nil_append] at h
  exact ⟨fun key entry hf => (h.1 key entry hf), h.2⟩

/-- Witness for C4 at a concrete run: the retained entry for account `A`
dominates the other date of the account in raw-string order. -/
theorem c4_witness : pyLt "700101" "690101" = false := by
  have h := (c4_latest_map_lexicographic ⟨2023, 6, 15⟩
      { accounts := [{ id := 1, widgetPosition := 0, name := some "A",
                       number := some "A", balance := some 0, difference := some 0,
                       recordDate := none, changeDate := none }] }
      { accounts := [{ id := 1, widgetPosition := 0, name := some "A",
                       number := some "A", balance := some 0, difference := some 0,
                       recordDate := none, changeDate := none }],
        hist := [{ accountId := 1, balance := mkRat 10 1,
                   recordDate := "2069-01-01", changeDate := "2023-06-15" },
                 { accountId := 1, balance := mkRat 20 1,
                   recordDate := "1970-01-01", changeDate := "2023-06-15" }] }
      [(some "A", "690101", "10"), (some "A", "700101", "20")]
      [(some "A", ("700101", mkRat 20 1, 1))] 2 0 rfl).1
      (some "A") ("700101", mkRat 20 1, 1) (by decide)
  exact h.2 (some "A", "690101", "10") (by decide) rfl

/-- Connexity of the code-point lexicographic comparison: two lists that
are each not below the other are equal. -/
theorem lexLt_connex : ∀ (a b : List Char),
    lexLt a b = false → lexLt b a = false → a = b := by
  intro a
  induction a with
  | nil =>
      intro b hab _
      cases b with
      | nil => rfl
      | cons y ys => exact absurd hab (by simp [lexLt])
  | cons x xs ih =>
      intro b hab hba
      cases b with
      | nil => exact absurd hba (by simp [lexLt])
      | cons y ys =>
          simp only [lexLt] at hab hba
          by_cases hxy : x.toNat < y.toNat
          · rw [if_pos hxy] at hab
            exact absurd hab (by simp)
          · rw [if_neg hxy] at hab
            by_cases hyx : y.toNat < x.toNat
            · rw [if_pos hyx] at hba
              exact absurd hba (by simp)
            · rw [if_neg hyx] at hab
              rw [if_neg hyx, if_neg hxy] at hba
              have hchar : x = y := Char.ext (UInt32.ext
                (Nat.le_antisymm (Nat.le_of_not_lt hyx) (Nat.le_of_not_lt hxy)))
              rw [hchar, ih ys hab hba]

/-- Combined dominance transfer: what is not below the stored date stays
not below anything the stored date is not below. -/
theorem pyLt_dominance2 {dcur iso p : String}
    (hstale : pyLt iso dcur = false) (hdom : pyLt dcur p = false) :
    pyLt iso p = false := by
  cases h : pyLt iso p with
  | false => rfl
  | true =>
      exfalso
      cases hpd : pyLt p dcur with
      | true =>
          have hc := pyLt_trans iso p dcur h hpd
          rw [hstale] at hc
          exact Bool.noConfusion hc
      | false =>
          have hpeq : p.data = dcur.data :=
            lexLt_connex p.data dcur.data hpd hdom
          have hc : pyLt iso dcur = true := by
            rw [pyLt] at h ⊢
            rw [← hpeq]
            exact h
          rw [hstale] at hc
          exact Bool.noConfusion hc

/-- ISO renderings are never the empty string. -/
theorem isoOfDate_ne_empty (d : Date) : isoOfDate d ≠ "" := by
  intro h
  have hd : (isoOfDate d).data = [] := by
    rw [h]
  rw [isoOfDate] at hd
  simp [String.data_append] at hd

/-- A successful date conversion never yields the empty string. -/
theorem get_iso_date_ok_ne_empty (s : Option String) (r : String)
    (h : get_iso_date s = .ok r) : r ≠ "" := by
  cases s with
  | none => exact absurd h (by simp [get_iso_date])
  | some s0 =>
      rw [get_iso_date_eq] at h
      by_cases hv : specValidYYMMDD s0 = true
      · rw [if_pos hv] at h
        injection h with h2
        rw [← h2]
        exact isoOfDate_ne_empty _
      · rw [if_neg hv] at h
        exact absurd h (by simp)

/-- `get_last_balance` only reads `tbl_AccountHistory`. -/
theorem get_last_balance_congr (db db2 : DB) (h : db.hist = db2.hist)
    (today : Date) (accountId : Nat) :
    get_last_balance db today accountId = get_last_balance db2 today accountId := by
  rw [get_last_balance, get_last_balance, h]

/-- The only failure of `get_last_balance` is the no-history error. -/
theorem get_last_balance_err (db : DB) (today : Date) (accountId : Nat) (e : Err)
    (h : get_last_balance db today accountId = .error e) : e = .noHistFound := by
  rw [get_last_balance] at h
  split at h
  · exact absurd h (by simp)
  · injection h with h2
    exact h2.symm

/-- An in-place id-preserving rewrite keeps the first row of an id. -/
theorem find?_update_map (l : List AccountRow) (accountId : Nat)
    (f : AccountRow → AccountRow) (hid : ∀ x, (f x).id = x.id) (r : AccountRow)
    (h : l.find? (fun x => x.id = accountId) = some r) :
    (l.map (fun x => if x.id = accountId then f x else x)).find?
      (fun x => x.id = accountId) = some (f r) := by
  induction l with
  | nil => simp [List.find?] at h
  | cons y ys ih =>
      rw [List.find?] at h
      cases hy : decide (y.id = accountId) with
      | true =>
          rw [hy] at h
          injection h with h2
          subst h2
          have hyid : y.id = accountId := of_decide_eq_true hy
          simp only [List.map, List.find?, if_pos hyid]
          rw [show decide ((f y).id = accountId) = true from by
            rw [hid y]
            exact hy]
      | false =>
          rw [hy] at h
          have hyid : ¬ y.id = accountId := of_decide_eq_false hy
          simp only [List.map, List.find?, if_neg hyid]
          rw [show decide (y.id = accountId) = false from hy]
          exact ih h

/-- Elimination of a successful `update_account`: the row was found, its
record date was not stale, and the store is the in-place rewrite. -/
theorem update_account_ok_elim (db : DB) (accountId : Nat) (u : AccountUpdate)
    (db2 : DB) (h : update_account db accountId u = .ok db2) :
    ∃ r, db.accounts.find? (fun x => x.id = accountId) = some r ∧
      (match r.recordDate with
        | some cur => pyLt u.recordDate cur
        | none => false) = false ∧
      db2 = { db with accounts := db.accounts.map (fun x => if x.id = accountId then applyUpd u x else x) } := by
  simp only [update_account] at h
  split at h
  · simp at h
  · next r heq =>
      refine ⟨r, heq, ?_, ?_⟩
      · cases hst : (match r.recordDate with
            | some cur => pyLt u.recordDate cur
            | none => false) with
        | false => rfl
        | true =>
            rw [hst] at h
            simp at h
      · cases hst : (match r.recordDate with
            | some cur => pyLt u.recordDate cur
            | none => false) with
        | true =>
            rw [hst] at h
            simp at h
        | false =>
            rw [hst] at h
            cases hch : updChanges u r with
            | false =>
                rw [hch] at h
                simp at h
            | true =>
                rw [hch] at h
                simp at h
                exact h.symm

/-- The in-place rewrite of `update_account` keeps row ids. -/
theorem applyUpd_id (u : AccountUpdate) (x : AccountRow) : (applyUpd u x).id = x.id := rfl

/-- Step case of the balance-update invariant for an accepted update. -/
theorem balanceUpdateRun_inv_step (today : Date) (accountId : Nat)
    (rest : List (String × Rat))
    (ih : ∀ (db db2 : DB) (acc accepted : List (String × Rat)),
      balanceUpdateRun today accountId db rest acc = .ok (db2, accepted) →
      AccRowState today accountId db db acc →
      db2.hist = db.hist ∧ AccRowState today accountId db db2 accepted)
    (db db2 : DB) (acc accepted : List (String × Rat)) (u : String × Rat)
    (iso : String) (dbX : DB)
    (hiso : get_iso_date (some u.1) = .ok iso)
    (hupd : update_account db accountId
      { widgetPosition := none
        name := ""
        number := ""
        balance := some u.2
        difference := some (round2 (ratSub u.2 (lastBalanceOrZero db today accountId)))
        recordDate := iso
        changeDate := isoOfDate today } = .ok dbX)
    (hrun : balanceUpdateRun today accountId dbX rest (acc ++ [(iso, u.2)]) = .ok (db2, accepted))
    (hstate : AccRowState today accountId db db acc) :
    db2.hist = db.hist ∧ AccRowState today accountId db db2 accepted := by
  set L := lastBalanceOrZero db today accountId with hL
  have hisone : iso ≠ "" := get_iso_date_ok_ne_empty _ _ hiso
  obtain ⟨r, hfind, hstale, hdbX⟩ := update_account_ok_elim _ _ _ _ hupd
  have hhistX : dbX.hist = db.hist := by
    rw [hdbX]
  have hLX : lastBalanceOrZero dbX today accountId = L := by
    rw [hL, lastBalanceOrZero, lastBalanceOrZero,
      get_last_balance_congr dbX db hhistX today accountId]
  set U : AccountUpdate :=
    { widgetPosition := none
      name := ""
      number := ""
      balance := some u.2
      difference := some (round2 (ratSub u.2 L))
      recordDate := iso
      changeDate := isoOfDate today } with hU
  have hfindX : dbX.accounts.find? (fun x => x.id = accountId)
      = some (applyUpd U r) := by
    rw [hdbX]
    exact find?_update_map db.accounts accountId (applyUpd U)
      (applyUpd_id U) r hfind
  have hrd : (applyUpd U r).recordDate = some iso := by
    simp only [hU, applyUpd]
    by_cases hrr : some iso = r.recordDate
    · rw [← hrr]
      split <;> rfl
    · simp [hisone, hrr]
  have hbal : (applyUpd U r).balance = some u.2 := by
    simp only [hU, applyUpd]
    by_cases hrr : some u.2 = r.balance
    · rw [← hrr]
      split <;> rfl
    · simp [hrr]
  have hdiff : (applyUpd U r).difference = some (round2 (ratSub u.2 L)) := by
    simp only [hU, applyUpd]
    by_cases hrr : some (round2 (ratSub u.2 L)) = r.difference
    · rw [← hrr]
      split <;> rfl
    · simp [hrr]
  have hdomnew : ∀ p ∈ acc ++ [(iso, u.2)], pyLt iso p.1 = false := by
    intro p hp
    rcases List.mem_append.mp hp with hin | hone
    · rcases hacc : acc with _ | ⟨a0, arest⟩
      · rw [hacc] at hin
        exact absurd hin (List.not_mem_nil p)
      · obtain ⟨d0, b0, r0, hlast0, hfind0, hrd0, _, _, hdom0⟩ :=
          hstate (by rw [hacc]; simp)
        have hrr0 : r0 = r := by
          rw [hfind0] at hfind
          injection hfind
        subst hrr0
        have hstale2 : pyLt iso d0 = false := by
          rw [hrd0] at hstale
          exact hstale
        exact pyLt_dominance2 hstale2 (hdom0 p hin)
    · rw [List.mem_singleton.mp hone]
      simp [pyLt, lexLt_irrefl]
  have hnewstate : AccRowState today accountId dbX dbX (acc ++ [(iso, u.2)]) := by
    intro _
    refine ⟨iso, u.2, applyUpd U r, List.getLast?_concat acc, hfindX, hrd, hbal, ?_, hdomnew⟩
    rw [hLX]
    exact hdiff
  have hres := ih dbX db2 (acc ++ [(iso, u.2)]) accepted hrun hnewstate
  refine ⟨hres.1.trans hhistX, ?_⟩
  intro hne
  obtain ⟨d, b, r2, h1, h2, h3, h4, h5, h6⟩ := hres.2 hne
  refine ⟨d, b, r2, h1, h2, h3, h4, ?_, h6⟩
  rw [hLX] at h5
  exact h5

/-- Loop invariant of the single-account balance-update sequence: the
history table never changes, and once at least one update has been
accepted the stored row carries the last accepted ISO date — which
dominates every accepted date — the last accepted balance, and the
rounded difference of that balance against the cutoff prior balance. -/
theorem balanceUpdateRun_inv (today : Date) (accountId : Nat) :
    ∀ (updates : List (String × Rat)) (db db2 : DB) (acc accepted : List (String × Rat)),
    balanceUpdateRun today accountId db updates acc = .ok (db2, accepted) →
    AccRowState today accountId db db acc →
    db2.hist = db.hist ∧ AccRowState today accountId db db2 accepted := by
  intro updates
  induction updates with
  | nil =>
      intro db db2 acc accepted hrun hstate
      simp only [balanceUpdateRun] at hrun
      simp at hrun
      obtain ⟨h1, h2⟩ := hrun
      subst h1
      subst h2
      exact ⟨rfl, hstate⟩
  | cons u rest ih =>
      intro db db2 acc accepted hrun hstate
      simp only [balanceUpdateRun] at hrun
      cases hlb : get_last_balance db today accountId with
      | ok lb =>
          rw [hlb] at hrun
          simp only [exceptPure, exceptBind_ok] at hrun
          rw [show lb = lastBalanceOrZero db today accountId from by
            rw [lastBalanceOrZero, hlb]] at hrun
          cases hiso : get_iso_date (some u.1) with
          | error e =>
              rw [hiso] at hrun
              simp [exceptBind_err] at hrun
          | ok iso =>
              rw [hiso] at hrun
              simp only [exceptBind_ok] at hrun
              cases hupd : update_account db accountId
                  { widgetPosition := none
                    name := ""
                    number := ""
                    balance := some u.2
                    difference := some (round2 (ratSub u.2 (lastBalanceOrZero db today accountId)))
                    recordDate := iso
                    changeDate := isoOfDate today } with
              | ok dbX =>
                  rw [hupd] at hrun
                  exact balanceUpdateRun_inv_step today accountId rest ih
                    db db2 acc accepted u iso dbX hiso hupd hrun hstate
              | error e =>
                  rw [hupd] at hrun
                  cases e with
                  | noChanges => exact ih db db2 acc accepted hrun hstate
                  | recordTooOld => exact ih db db2 acc accepted hrun hstate
                  | noAccountFound => simp [exceptThrow] at hrun
                  | valueError => simp [exceptThrow] at hrun
                  | indexError => simp [exceptThrow] at hrun
                  | typeError => simp [exceptThrow] at hrun
                  | dbError => simp [exceptThrow] at hrun
                  | alreadyExists => simp [exceptThrow] at hrun
                  | existingHist => simp [exceptThrow] at hrun
                  | noHistFound => simp [exceptThrow] at hrun
                  | mt940 => simp [exceptThrow] at hrun
      | error e =>
          have he := get_last_balance_err db today accountId e hlb
          subst he
          rw [hlb] at hrun
          simp only [exceptPure, exceptBind_ok] at hrun
          rw [show (0 : Rat) = lastBalanceOrZero db today accountId from by
            rw [lastBalanceOrZero, hlb]] at hrun
          cases hiso : get_iso_date (some u.1) with
          | error e2 =>
              rw [hiso] at hrun
              simp [exceptBind_err] at hrun
          | ok iso =>
              rw [hiso] at hrun
              simp only [exceptBind_ok] at hrun
              cases hupd : update_account db accountId
                  { widgetPosition := none
                    name := ""
                    number := ""
                    balance := some u.2
                    difference := some (round2 (ratSub u.2 (lastBalanceOrZero db today accountId)))
                    recordDate := iso
                    changeDate := isoOfDate today } with
              | ok dbX =>
                  rw [hupd] at hrun
                  exact balanceUpdateRun_inv_step today accountId rest ih
                    db db2 acc accepted u iso dbX hiso hupd hrun hstate
              | error e2 =>
                  rw [hupd] at hrun
                  cases e2 with
                  | noChanges => exact ih db db2 acc accepted hrun hstate
                  | recordTooOld => exact ih db db2 acc accepted hrun hstate
                  | noAccountFound => simp [exceptThrow] at hrun
                  | valueError => simp [exceptThrow] at hrun
                  | indexError => simp [exceptThrow] at hrun
                  | typeError => simp [exceptThrow] at hrun
                  | dbError => simp [exceptThrow] at hrun
                  | alreadyExists => simp [exceptThrow] at hrun
                  | existingHist => simp [exceptThrow] at hrun
                  | noHistFound => simp [exceptThrow] at hrun
                  | mt940 => simp [exceptThrow] at hrun

/-- C2 counterexample: one non-stale update of balance 130 dated
`2023-06-10`, run on June 15 2023 over an account whose only history
snapshot is (100, `2023-06-01`), stores difference 130 — because the
cutoff query looks before May 31 and finds nothing — although the
immediately prior snapshot balance is 100, so the claimed difference
would be 30: stored difference ≠ stored balance − prior snapshot
balance. -/
theorem c2_counterexample :
    balanceUpdateRun ⟨2023, 6, 15⟩ 1
        { accounts := [{ id := 1, widgetPosition := 0, name := some "A",
                         number := some "X", balance := some (mkRat 100 1),
                         difference := some 0, recordDate := some "2023-06-01",
                         changeDate := some "2023-06-01" }],
          hist := [{ accountId := 1, balance := mkRat 100 1,
                     recordDate := "2023-06-01", changeDate := "2023-06-01" }] }
        [("230610", mkRat 130 1)] []
      = .ok ({ accounts := [{ id := 1, widgetPosition := 0, name := some "A",
                              number := some "X", balance := some (mkRat 130 1),
                              difference := some (mkRat 130 1),
                              recordDate := some "2023-06-10",
                              changeDate := some "2023-06-15" }],
               hist := [{ accountId := 1, balance := mkRat 100 1,
                          recordDate := "2023-06-01", changeDate := "2023-06-01" }] },
             [("2023-06-10", mkRat 130 1)]) ∧
    specPriorSnapshotBalance
        { accounts := [{ id := 1, widgetPosition := 0, name := some "A",
                         number := some "X", balance := some (mkRat 100 1),
                         difference := some 0, recordDate := some "2023-06-01",
                         changeDate := some "2023-06-01" }],
          hist := [{ accountId := 1, balance := mkRat 100 1,
                     recordDate := "2023-06-01", changeDate := "2023-06-01" }] }
        1 "2023-06-10" = mkRat 100 1 ∧
    (mkRat 130 1 : Rat) ≠ ratSub (mkRat 130 1) (mkRat 100 1) := by
  refine ⟨by decide, by decide, by decide⟩

/-- C2 (amended): after any sequence of balance updates on one account in
which the stale ones are rejected, the history table is unchanged, and —
once at least one update was accepted — the stored record date is the
maximum ISO date among the accepted updates, the stored balance is the
last accepted balance, and the stored difference equals the stored
balance minus the balance of the latest history snapshot recorded
strictly before the last day of the month preceding the run day (0.0 if
none), rounded to two decimals. -/
theorem c2_balance_invariant_cutoff (today : Date) (accountId : Nat)
    (updates : List (String × Rat)) (db db2 : DB)
    (accepted : List (String × Rat))
    (hrun : balanceUpdateRun today accountId db updates [] = .ok (db2, accepted))
    (hne : accepted ≠ []) :
    db2.hist = db.hist ∧
    ∃ d b r, accepted.getLast? = some (d, b) ∧
      db2.accounts.find? (fun x => x.id = accountId) = some r ∧
      r.recordDate = some d ∧
      (∀ p ∈ accepted, pyLt d p.1 = false) ∧
      r.balance = some b ∧
      r.difference = some (round2 (ratSub b (lastBalanceOrZero db today accountId))) := by
  have h := balanceUpdateRun_inv today accountId updates db db2 [] accepted hrun
    (fun hx => absurd rfl hx)
  obtain ⟨d, b, r, h1, h2, h3, h4, h5, h6⟩ := h.2 hne
  exact ⟨h.1, d, b, r, h1, h2, h3, h6, h4, h5⟩

/-- Witness for C2 at a concrete accepted update: the invariant applies
and in particular the history table is untouched. -/
theorem c2_witness :
    ({ accounts := [{ id := 1, widgetPosition := 0, name := some "A",
                      number := some "X", balance := some (mkRat 130 1),
                      difference := some (mkRat 130 1),
                      recordDate := some "2023-06-10",
                      changeDate := some "2023-06-15" }],
       hist := [{ accountId := 1, balance := mkRat 100 1,
                  recordDate := "2023-06-01", changeDate := "2023-06-01" }] } : DB).hist
      = ({ accounts := [{ id := 1, widgetPosition := 0, name := some "A",
                          number := some "X", balance := some (mkRat 100 1),
                          difference := some 0, recordDate := some "2023-06-01",
                          changeDate := some "2023-06-01" }],
           hist := [{ accountId := 1, balance := mkRat 100 1,
                      recordDate := "2023-06-01", changeDate := "2023-06-01" }] } : DB).hist :=
  (c2_balance_invariant_cutoff ⟨2023, 6, 15⟩ 1 [("230610", mkRat 130 1)]
    { accounts := [{ id := 1, widgetPosition := 0, name := some "A",
                     number := some "X", balance := some (mkRat 100 1),
                     difference := some 0, recordDate := some "2023-06-01",
                     changeDate := some "2023-06-01" }],
      hist := [{ accountId := 1, balance := mkRat 100 1,
                 recordDate := "2023-06-01", changeDate := "2023-06-01" }] }
    { accounts := [{ id := 1, widgetPosition := 0, name := some "A",
                     number := some "X", balance := some (mkRat 130 1),
                     difference := some (mkRat 130 1),
                     recordDate := some "2023-06-10",
                     changeDate := some "2023-06-15" }],
      hist := [{ accountId := 1, balance := mkRat 100 1,
                 recordDate := "2023-06-01", changeDate := "2023-06-01" }] }
    [("2023-06-10", mkRat 130 1)] (by decide) (by decide)).1

/-! ## List and growth lemmas for the idempotence claim -/

/-- A first match survives appending rows behind it. -/
theorem find?_append_left {α : Type} (p : α → Bool) (l t : List α) (x : α)
    (h : l.find? p = some x) : (l ++ t).find? p = some x := by
  rw [List.find?_append, h]
  rfl

/-- With no match in the front part, a lookup scans the appended part. -/
theorem find?_append_none {α : Type} (p : α → Bool) (l t : List α)
    (h : l.find? p = none) : (l ++ t).find? p = t.find? p := by
  rw [List.find?_append, h]
  rfl

/-- A satisfied existence check survives appending rows. -/
theorem any_append_left {α : Type} (p : α → Bool) (l t : List α)
    (h : l.any p = true) : (l ++ t).any p = true := by
  rw [List.any_append, h]
  rfl

/-- Growth of the store is reflexive. -/
theorem dbExtends_refl (s : DB) : DBExtends s s :=
  ⟨⟨[], by simp⟩, ⟨[], by simp⟩, ⟨[], by simp⟩, ⟨[], by simp⟩, ⟨[], by simp⟩⟩

/-- Growth of the store is transitive. -/
theorem dbExtends_trans {a b c : DB} (h1 : DBExtends a b) (h2 : DBExtends b c) :
    DBExtends a c := by
  obtain ⟨⟨l1, e1⟩, ⟨l2, e2⟩, ⟨l3, e3⟩, ⟨l4, e4⟩, ⟨l5, e5⟩⟩ := h1
  obtain ⟨⟨m1, f1⟩, ⟨m2, f2⟩, ⟨m3, f3⟩, ⟨m4, f4⟩, ⟨m5, f5⟩⟩ := h2
  exact ⟨⟨l1 ++ m1, by rw [f1, e1, List.append_assoc]⟩,
    ⟨l2 ++ m2, by rw [f2, e2, List.append_assoc]⟩,
    ⟨l3 ++ m3, by rw [f3, e3, List.append_assoc]⟩,
    ⟨l4 ++ m4, by rw [f4, e4, List.append_assoc]⟩,
    ⟨l5 ++ m5, by rw [f5, e5, List.append_assoc]⟩⟩

/-- A successful account lookup survives growth of the store. -/
theorem get_account_id_extends {s t : DB} (hx : DBExtends s t)
    (supName supNum supBal supDiff : Bool) (vName vNum : Option String)
    (vBal vDiff : Option Rat) (i : Nat)
    (h : get_account_id s supName supNum supBal supDiff vName vNum vBal vDiff = .ok i) :
    get_account_id t supName supNum supBal supDiff vName vNum vBal vDiff = .ok i := by
  obtain ⟨⟨l, e⟩, -⟩ := hx
  rw [get_account_id] at h ⊢
  split at h
  · exact absurd h (by simp)
  · rename_i hguard
    rw [if_neg hguard, e]
    cases hf : s.accounts.find?
        (accountMatches supName supNum supBal supDiff vName vNum vBal vDiff) with
    | none => rw [hf] at h; exact absurd h (by simp)
    | some r =>
        rw [hf] at h
        rw [find?_append_left _ _ _ _ hf]
        exact h

/-- A successful transaction-type lookup survives growth of the store. -/
theorem get_transaction_typ_id_extends {s t : DB} (hx : DBExtends s t)
    (supName supNum : Bool) (vName vNum : Option String) (i : Nat)
    (h : get_transaction_typ_id s supName supNum vName vNum = .ok i) :
    get_transaction_typ_id t supName supNum vName vNum = .ok i := by
  obtain ⟨-, ⟨l, e⟩, -⟩ := hx
  rw [get_transaction_typ_id] at h ⊢
  split at h
  · exact absurd h (by simp)
  · rename_i hguard
    rw [if_neg hguard, e]
    cases hf : s.tts.find? (fun r =>
        (!supName || sqlNullEq r.name vName) && (!supNum || sqlNullEq r.number vNum)) with
    | none => rw [hf] at h; exact absurd h (by simp)
    | some r =>
        rw [hf] at h
        rw [find?_append_left _ _ _ _ hf]
        exact h

/-- A successful counterparty lookup survives growth of the store. -/
theorem get_counterparty_id_extends {s t : DB} (hx : DBExtends s t)
    (supName supNum : Bool) (vName vNum : Option String) (i : Nat)
    (h : get_counterparty_id s supName supNum vName vNum = .ok i) :
    get_counterparty_id t supName supNum vName vNum = .ok i := by
  obtain ⟨-, -, ⟨l, e⟩, -⟩ := hx
  rw [get_counterparty_id] at h ⊢
  split at h
  · exact absurd h (by simp)
  · rename_i hguard
    rw [if_neg hguard, e]
    cases hf : s.cps.find? (fun r =>
        (!supName || sqlNullEq r.name vName) && (!supNum || sqlNullEq r.number vNum)) with
    | none => rw [hf] at h; exact absurd h (by simp)
    | some r =>
        rw [hf] at h
        rw [find?_append_left _ _ _ _ hf]
        exact h

/-- `get_transaction_typ_id` only reads `tbl_TransactionTyp`. -/
theorem get_transaction_typ_id_congr (db db2 : DB) (h : db.tts = db2.tts)
    (supName supNum : Bool) (vName vNum : Option String) :
    get_transaction_typ_id db supName supNum vName vNum
      = get_transaction_typ_id db2 supName supNum vName vNum := by
  rw [get_transaction_typ_id, get_transaction_typ_id, h]

/-- `get_counterparty_id` only reads `tbl_Counterparty`. -/
theorem get_counterparty_id_congr (db db2 : DB) (h : db.cps = db2.cps)
    (supName supNum : Bool) (vName vNum : Option String) :
    get_counterparty_id db supName supNum vName vNum
      = get_counterparty_id db2 supName supNum vName vNum := by
  rw [get_counterparty_id, get_counterparty_id, h]

/-- Pointwise reflexive relations hold along a list. -/
theorem forall₂_self {α : Type} (R : α → α → Prop) (hR : ∀ x, R x x) :
    ∀ l : List α, List.Forall₂ R l l
  | [] => List.Forall₂.nil
  | a :: l => List.Forall₂.cons (hR a) (forall₂_self R hR l)

/-- Pointwise transitive relations compose along lists. -/
theorem forall₂_trans {α : Type} {R : α → α → Prop}
    (hR : ∀ a b c, R a b → R b c → R a c) :
    ∀ {l1 l2 l3 : List α}, List.Forall₂ R l1 l2 → List.Forall₂ R l2 l3 →
      List.Forall₂ R l1 l3 := by
  intro l1 l2 l3 h1 h2
  induction h1 generalizing l3 with
  | nil => cases h2; exact .nil
  | cons hab h ih =>
      cases h2 with
      | cons hbc h2 => exact .cons (hR _ _ _ hab hbc) (ih h2)

/-- Members transfer along a pointwise relation between lists. -/
theorem forall₂_mem {α : Type} {R : α → α → Prop} {l1 l2 : List α}
    (h : List.Forall₂ R l1 l2) (a : α) (ha : a ∈ l1) : ∃ b ∈ l2, R a b := by
  induction h with
  | nil => cases ha
  | cons hab h ih =>
      cases ha with
      | head => exact ⟨_, List.mem_cons_self _ _, hab⟩
      | tail _ hm =>
          obtain ⟨b, hb, hr⟩ := ih hm
          exact ⟨b, List.mem_cons_of_mem _ hb, hr⟩

/-- A pointwise in-place rewrite of a list realises the pointwise relation. -/
theorem forall₂_map_self {α : Type} (R : α → α → Prop) (g : α → α)
    (hg : ∀ x, R x (g x)) : ∀ l : List α, List.Forall₂ R l (l.map g)
  | [] => List.Forall₂.nil
  | a :: l => List.Forall₂.cons (hg a) (forall₂_map_self R g hg l)

/-- The number-only account filter reads nothing but the number column. -/
theorem accountMatches_number_only (vNum : Option String) (a b : AccountRow)
    (h : b.number = a.number) :
    accountMatches false true false false none vNum none none b
      = accountMatches false true false false none vNum none none a := by
  simp [accountMatches, h]

/-- A number-only first match survives an id- and number-preserving
in-place rewrite of the account table, keeping its id. -/
theorem find?_number_forall₂ (vNum : Option String) :
    ∀ {l l2 : List AccountRow},
      List.Forall₂ (fun a b => b.id = a.id ∧ b.number = a.number) l l2 →
      ∀ r, l.find? (accountMatches false true false false none vNum none none) = some r →
      ∃ r2, l2.find? (accountMatches false true false false none vNum none none) = some r2
        ∧ r2.id = r.id := by
  intro l l2 h
  induction h with
  | nil => intro r hr; simp [List.find?] at hr
  | cons hab h ih =>
      rename_i a b l1 l2a
      intro r hr
      cases hpa : accountMatches false true false false none vNum none none a with
      | true =>
          rw [List.find?_cons, hpa] at hr
          refine ⟨b, ?_, ?_⟩
          · rw [List.find?_cons, accountMatches_number_only vNum a b hab.2, hpa]
          · cases hr
            exact hab.1
      | false =>
          rw [List.find?_cons, hpa] at hr
          obtain ⟨r2, hr2, hid⟩ := ih r hr
          refine ⟨r2, ?_, hid⟩
          rw [List.find?_cons, accountMatches_number_only vNum a b hab.2, hpa]
          exact hr2

/-- A successful number-only account lookup survives the balance-update
phase, returning the same id. -/
theorem get_account_id_shape {s t : DB} (hs : AccountsShape s t)
    (vNum : Option String) (i : Nat)
    (h : get_account_id s false true false false none vNum none none = .ok i) :
    get_account_id t false true false false none vNum none none = .ok i := by
  rw [get_account_id] at h ⊢
  split at h
  · exact absurd h (by simp)
  · rename_i hguard
    rw [if_neg hguard]
    cases hf : s.accounts.find? (accountMatches false true false false none vNum none none) with
    | none => rw [hf] at h; exact absurd h (by simp)
    | some r =>
        rw [hf] at h
        change Except.ok r.id = Except.ok i at h
        obtain ⟨r2, hr2, hid⟩ := find?_number_forall₂ vNum hs.2.2.2.2 r hf
        rw [hr2]
        change Except.ok r2.id = Except.ok i
        rw [hid]
        exact h

/-! ## The idempotence claim -/

/-- Elimination of a successful `add_transaction_typ`: the guard passed
and the row was appended. -/
theorem add_transaction_typ_frame (db db2 : DB) (n m : Option String)
    (h : add_transaction_typ db n m = .ok db2) :
    db2.accounts = db.accounts ∧ db2.cps = db.cps ∧ db2.txs = db.txs ∧
      db2.hist = db.hist ∧
      db2.tts = db.tts ++ [{ id := db.nextTTId, name := n, number := m }] := by
  rw [add_transaction_typ] at h
  split at h
  · exact absurd h (by simp)
  · injection h with h
    rw [← h]
    exact ⟨rfl, rfl, rfl, rfl, rfl⟩

theorem add_transaction_typ_extends (db db2 : DB) (n m : Option String)
    (h : add_transaction_typ db n m = .ok db2) : DBExtends db db2 := by
  obtain ⟨f1, f2, f3, f4, f5⟩ := add_transaction_typ_frame db db2 n m h
  exact ⟨⟨[], by simp [f1]⟩, ⟨_, f5⟩, ⟨[], by simp [f2]⟩, ⟨[], by simp [f3]⟩,
    ⟨[], by simp [f4]⟩⟩

/-- Elimination of a successful `add_counterparty`: the guard passed and
the row was appended. -/
theorem add_counterparty_frame (db db2 : DB) (n m : Option String)
    (h : add_counterparty db n m = .ok db2) :
    db2.accounts = db.accounts ∧ db2.tts = db.tts ∧ db2.txs = db.txs ∧
      db2.hist = db.hist ∧
      db2.cps = db.cps ++ [{ id := db.nextCPId, name := n, number := m }] := by
  rw [add_counterparty] at h
  split at h
  · exact absurd h (by simp)
  · injection h with h
    rw [← h]
    exact ⟨rfl, rfl, rfl, rfl, rfl⟩

theorem add_counterparty_extends (db db2 : DB) (n m : Option String)
    (h : add_counterparty db n m = .ok db2) : DBExtends db db2 := by
  obtain ⟨f1, f2, f3, f4, f5⟩ := add_counterparty_frame db db2 n m h
  exact ⟨⟨[], by simp [f1]⟩, ⟨[], by simp [f2]⟩, ⟨_, f5⟩, ⟨[], by simp [f3]⟩,
    ⟨[], by simp [f4]⟩⟩

/-- Elimination of a successful `add_account`: the constraints passed and
some row was appended. -/
theorem add_account_ok_elim (db db2 : DB) (today : Date) (name number : Option String)
    (balance difference : Rat) (recordDate : String) (position : Option Int)
    (changeDate : Option String)
    (h : add_account db today name number balance difference recordDate position
      changeDate = .ok db2) :
    ∃ row, db2 = { db with
      accounts := db.accounts ++ [row]
      nextAccountId := db.nextAccountId + 1 } := by
  rw [add_account.eq_def] at h
  split at h
  all_goals split at h
  all_goals simp only [] at h
  all_goals split at h
  all_goals first
    | exact Except.noConfusion h
    | (injection h with h; exact ⟨_, h.symm⟩)

theorem add_account_mt940_extends (db db2 : DB) (today : Date) (number : Option String)
    (name : String) (bal : Option Rat)
    (h : add_account_mt940 db today number name bal = .ok db2) : DBExtends db db2 := by
  rw [add_account_mt940.eq_def] at h
  cases number with
  | none => exact absurd h (by simp)
  | some num =>
      obtain ⟨row, hrow⟩ := add_account_ok_elim db db2 today (some name) (some num)
        (bal.getD 0) 0 mt940DefaultRecordDate none none h
      rw [hrow]
      exact ⟨⟨[row], rfl⟩, ⟨[], by simp⟩, ⟨[], by simp⟩, ⟨[], by simp⟩, ⟨[], by simp⟩⟩

theorem add_transaction_extends (db db2 : DB) (d : TxData)
    (h : add_transaction db d = .ok db2) : DBExtends db db2 := by
  rw [add_transaction] at h
  split at h
  · exact absurd h (by simp)
  · split at h
    · exact absurd h (by simp)
    · injection h with h
      rw [← h]
      exact ⟨⟨[], by simp⟩, ⟨[], by simp⟩, ⟨[], by simp⟩, ⟨_, rfl⟩, ⟨[], by simp⟩⟩

theorem entryReady_congr (db db2 : DB) (ha : db.accounts = db2.accounts)
    (ht : db.tts = db2.tts) (hc : db.cps = db2.cps) (e : ParsedTx) (d : TxData)
    (h : EntryReady db e d) : EntryReady db2 e d := by
  obtain ⟨h1, h2, h3, h4, h5⟩ := h
  refine ⟨?_, h2, ?_, ?_, h5⟩
  · rw [← get_account_id_congr db db2 ha]; exact h1
  · rw [← get_transaction_typ_id_congr db db2 ht]; exact h3
  · rw [← get_counterparty_id_congr db db2 hc]; exact h4

theorem entryReady_extends {db db2 : DB} (hx : DBExtends db db2) (e : ParsedTx)
    (d : TxData) (h : EntryReady db e d) : EntryReady db2 e d :=
  ⟨get_account_id_extends hx _ _ _ _ _ _ _ _ _ h.1, h.2.1,
   get_transaction_typ_id_extends hx _ _ _ _ _ h.2.2.1,
   get_counterparty_id_extends hx _ _ _ _ _ h.2.2.2.1, h.2.2.2.2⟩

theorem entryReady_shape {db db2 : DB} (hs : AccountsShape db db2) (e : ParsedTx)
    (d : TxData) (h : EntryReady db e d) : EntryReady db2 e d := by
  obtain ⟨h1, h2, h3, h4, h5⟩ := h
  refine ⟨get_account_id_shape hs _ _ h1, h2, ?_, ?_, h5⟩
  · rw [← get_transaction_typ_id_congr db db2 hs.1.symm]; exact h3
  · rw [← get_counterparty_id_congr db db2 hs.2.1.symm]; exact h4

theorem get_counterparty_id_after_add (db db2 : DB) (n num : Option String) (i : Nat)
    (h1 : get_counterparty_id db false true n num = .error .dbError)
    (hadd : add_counterparty db n num = .ok db2)
    (h2 : get_counterparty_id db2 true true n num = .ok i) :
    get_counterparty_id db2 false true n num = .ok i := by
  obtain ⟨-, -, -, -, hcps⟩ := add_counterparty_frame db db2 n num hadd
  rw [get_counterparty_id] at h1 h2 ⊢
  rw [if_neg (by decide)] at h1 h2 ⊢
  rw [hcps] at h2 ⊢
  cases hf1 : db.cps.find? (fun r =>
      (!false || sqlNullEq r.name n) && (!true || sqlNullEq r.number num)) with
  | some r => rw [hf1] at h1; exact absurd h1 (by simp)
  | none =>
      have hnone2 : db.cps.find? (fun r =>
          (!true || sqlNullEq r.name n) && (!true || sqlNullEq r.number num)) = none := by
        rw [List.find?_eq_none] at hf1 ⊢
        intro x hx hP2
        refine hf1 x hx ?_
        simp only [Bool.not_true, Bool.not_false, Bool.true_or, Bool.false_or,
          Bool.true_and, Bool.and_eq_true] at hP2 ⊢
        exact hP2.2
      rw [find?_append_none _ _ _ hnone2] at h2
      rw [find?_append_none _ _ _ hf1]
      rw [List.find?_cons] at h2 ⊢
      have hproj1 : ({ id := db.nextCPId, name := n, number := num } : CPRow).name = n := rfl
      have hproj2 : ({ id := db.nextCPId, name := n, number := num } : CPRow).number = num := rfl
      rw [hproj1, hproj2] at h2 ⊢
      simp only [Bool.not_true, Bool.not_false, Bool.true_or, Bool.false_or,
        Bool.true_and] at h2 ⊢
      cases hq : sqlNullEq num num with
      | false =>
          rw [hq, Bool.and_false] at h2
          simp [List.find?] at h2
      | true =>
          rw [hq, Bool.and_true] at h2
          cases hp : sqlNullEq n n with
          | false => rw [hp] at h2; simp [List.find?] at h2
          | true => rw [hp] at h2; exact h2

theorem add_account_mt940_frame (db db2 : DB) (today : Date) (number : Option String)
    (name : String) (bal : Option Rat)
    (h : add_account_mt940 db today number name bal = .ok db2) :
    db2.tts = db.tts ∧ db2.cps = db.cps ∧ db2.txs = db.txs ∧ db2.hist = db.hist := by
  rw [add_account_mt940.eq_def] at h
  cases number with
  | none => exact absurd h (by simp)
  | some num =>
      obtain ⟨row, hrow⟩ := add_account_ok_elim db db2 today (some name) (some num)
        (bal.getD 0) 0 mt940DefaultRecordDate none none h
      rw [hrow]
      exact ⟨rfl, rfl, rfl, rfl⟩

theorem resolveAccount_elim (today : Date) (f : Option String → String)
    (db A : DB) (e : ParsedTx) (i : Nat)
    (h : resolveAccount today f db e = .ok (A, i)) :
    DBExtends db A ∧ A.tts = db.tts ∧ A.cps = db.cps ∧ A.txs = db.txs ∧
      A.hist = db.hist ∧
      get_account_id A false true false false none e.account none none = .ok i := by
  rw [resolveAccount] at h
  split at h
  · rename_i j heq
    rw [exceptPure] at h
    injection h with h
    injection h with hdb hj
    subst hdb
    subst hj
    exact ⟨dbExtends_refl db, rfl, rfl, rfl, rfl, heq⟩
  · rename_i heq
    cases hadd : add_account_mt940 db today e.account (f e.account) e.openingBalance with
    | error er => rw [hadd, exceptBind_err] at h; exact absurd h (by simp)
    | ok db2 =>
        rw [hadd, exceptBind_ok] at h
        cases hacc2 : get_account_id db2 false true false false none e.account none none with
        | error er => rw [hacc2, exceptBind_err] at h; exact absurd h (by simp)
        | ok j =>
            rw [hacc2, exceptBind_ok, exceptPure] at h
            injection h with h
            injection h with hdb hj
            subst hdb
            subst hj
            obtain ⟨f1, f2, f3, f4⟩ := add_account_mt940_frame db _ today e.account
              (f e.account) e.openingBalance hadd
            exact ⟨add_account_mt940_extends db _ today e.account (f e.account)
              e.openingBalance hadd, f1, f2, f3, f4, hacc2⟩
  · rename_i er hne heq
    rw [exceptThrow] at h
    exact absurd h (by simp)

theorem resolveTT_elim (db B : DB) (e : ParsedTx) (i : Nat)
    (h : resolveTT db e = .ok (B, i)) :
    DBExtends db B ∧ B.accounts = db.accounts ∧ B.cps = db.cps ∧ B.txs = db.txs ∧
      B.hist = db.hist ∧
      get_transaction_typ_id B true true e.ttName e.ttNumber = .ok i := by
  rw [resolveTT] at h
  split at h
  · rename_i j heq
    rw [exceptPure] at h
    injection h with h
    injection h with hdb hj
    subst hdb
    subst hj
    exact ⟨dbExtends_refl db, rfl, rfl, rfl, rfl, heq⟩
  · rename_i heq
    cases hadd : add_transaction_typ db e.ttName e.ttNumber with
    | error er => rw [hadd, exceptBind_err] at h; exact absurd h (by simp)
    | ok db2 =>
        rw [hadd, exceptBind_ok] at h
        cases heq2 : get_transaction_typ_id db2 true true e.ttName e.ttNumber with
        | error er =>
            rw [heq2] at h
            simp [exceptThrow] at h
        | ok j =>
            rw [heq2] at h
            simp only [exceptPure] at h
            injection h with h
            injection h with hdb hj
            subst hdb
            subst hj
            obtain ⟨f1, f2, f3, f4, -⟩ :=
              add_transaction_typ_frame db _ e.ttName e.ttNumber hadd
            exact ⟨add_transaction_typ_extends db _ e.ttName e.ttNumber hadd,
              f1, f2, f3, f4, heq2⟩
  · rename_i er hne heq
    rw [exceptThrow] at h
    exact absurd h (by simp)

theorem resolveCP_elim (db C : DB) (e : ParsedTx) (i : Nat)
    (h : resolveCP db e = .ok (C, i)) :
    DBExtends db C ∧ C.accounts = db.accounts ∧ C.tts = db.tts ∧ C.txs = db.txs ∧
      C.hist = db.hist ∧
      get_counterparty_id C false true e.counterpartyName e.counterpartyAccount
        = .ok i := by
  rw [resolveCP] at h
  split at h
  · rename_i j heq
    rw [exceptPure] at h
    injection h with h
    injection h with hdb hj
    subst hdb
    subst hj
    exact ⟨dbExtends_refl db, rfl, rfl, rfl, rfl, heq⟩
  · rename_i heq
    cases hadd : add_counterparty db e.counterpartyName e.counterpartyAccount with
    | error er => rw [hadd, exceptBind_err] at h; exact absurd h (by simp)
    | ok db2 =>
        rw [hadd, exceptBind_ok] at h
        cases heq2 : get_counterparty_id db2 true true e.counterpartyName
            e.counterpartyAccount with
        | error er =>
            rw [heq2] at h
            simp [exceptThrow] at h
        | ok j =>
            rw [heq2] at h
            simp only [exceptPure] at h
            injection h with h
            injection h with hdb hj
            subst hdb
            subst hj
            obtain ⟨f1, f2, f3, f4, -⟩ :=
              add_counterparty_frame db _ e.counterpartyName e.counterpartyAccount hadd
            refine ⟨add_counterparty_extends db _ e.counterpartyName
              e.counterpartyAccount hadd, f1, f2, f3, f4, ?_⟩
            exact get_counterparty_id_after_add db _ e.counterpartyName
              e.counterpartyAccount _ heq hadd heq2
  · rename_i er hne heq
    rw [exceptThrow] at h
    exact absurd h (by simp)

theorem resolveAccount_intro (today : Date) (f : Option String → String)
    (db : DB) (e : ParsedTx) (i : Nat)
    (h : get_account_id db false true false false none e.account none none = .ok i) :
    resolveAccount today f db e = .ok (db, i) := by
  rw [resolveAccount, h]
  rfl

theorem resolveTT_intro (db : DB) (e : ParsedTx) (i : Nat)
    (h : get_transaction_typ_id db true true e.ttName e.ttNumber = .ok i) :
    resolveTT db e = .ok (db, i) := by
  rw [resolveTT, h]
  rfl

theorem resolveCP_intro (db : DB) (e : ParsedTx) (i : Nat)
    (h : get_counterparty_id db false true e.counterpartyName e.counterpartyAccount
      = .ok i) :
    resolveCP db e = .ok (db, i) := by
  rw [resolveCP, h]
  rfl

theorem resolveEntry_elim (today : Date) (f : Option String → String)
    (db db1 : DB) (e : ParsedTx) (d : TxData) (cb : List CBTriple)
    (h : resolveEntry today f db e = .ok (db1, d, cb)) :
    DBExtends db db1 ∧ EntryReady db1 e d ∧
      cb = (match e.closingBalance with | some c => [c] | none => []) := by
  rw [resolveEntry] at h
  cases hA : resolveAccount today f db e with
  | error er => rw [hA] at h; simp [exceptBind_err] at h
  | ok p =>
      obtain ⟨A, i⟩ := p
      rw [hA] at h
      simp only [exceptBind_ok] at h
      cases hB : computeBookingIso e.date e.bookingdate with
      | error er => rw [hB] at h; simp [exceptBind_err] at h
      | ok q =>
          obtain ⟨rd, rb⟩ := q
          rw [hB] at h
          simp only [exceptBind_ok] at h
          cases hT : resolveTT A e with
          | error er => rw [hT] at h; simp [exceptBind_err] at h
          | ok p2 =>
              obtain ⟨B, j⟩ := p2
              rw [hT] at h
              simp only [exceptBind_ok] at h
              cases hC : resolveCP B e with
              | error er => rw [hC] at h; simp [exceptBind_err] at h
              | ok p3 =>
                  obtain ⟨C, k⟩ := p3
                  rw [hC] at h
                  simp only [exceptBind_ok, exceptPure] at h
                  injection h with h
                  injection h with hdb h
                  injection h with hd hcb
                  subst hdb
                  subst hd
                  subst hcb
                  obtain ⟨hxA, fA1, fA2, fA3, fA4, haccA⟩ :=
                    resolveAccount_elim today f db _ e i hA
                  obtain ⟨hxT, gT1, gT2, gT3, gT4, httB⟩ := resolveTT_elim _ B e j hT
                  obtain ⟨hxC, gC1, gC2, gC3, gC4, hcpC⟩ := resolveCP_elim B _ e k hC
                  refine ⟨dbExtends_trans (dbExtends_trans hxA hxT) hxC, ?_, rfl⟩
                  refine ⟨?_, hB, ?_, hcpC, rfl⟩
                  · rw [← get_account_id_congr _ _ ((gC1.trans gT1).symm)]
                    exact haccA
                  · rw [← get_transaction_typ_id_congr _ _ gC2.symm]
                    exact httB

theorem resolveEntry_intro (today : Date) (f : Option String → String)
    (db : DB) (e : ParsedTx) (d : TxData) (h : EntryReady db e d) :
    resolveEntry today f db e
      = .ok (db, d, (match e.closingBalance with | some c => [c] | none => [])) := by
  obtain ⟨h1, h2, h3, h4, h5⟩ := h
  rw [resolveEntry]
  rw [resolveAccount_intro today f db e d.accountId h1]
  simp only [exceptBind_ok]
  rw [h2]
  simp only [exceptBind_ok]
  rw [resolveTT_intro db e d.ttId h3]
  simp only [exceptBind_ok]
  rw [resolveCP_intro db e d.counterpartyId h4]
  simp only [exceptBind_ok, exceptPure]
  rw [h5]

theorem cbListOf_cons (e : ParsedTx) (rest : List ParsedTx) :
    cbListOf (e :: rest)
      = (match e.closingBalance with | some c => [c] | none => []) ++ cbListOf rest := by
  cases hc : e.closingBalance <;> simp [cbListOf, hc]

theorem txKeyMatches_self (d : TxData) (ha : d.amount.isSome = true)
    (hp : d.purpose.isSome = true) : txKeyMatches d (txRowOf d) = true := by
  cases hca : d.amount with
  | none => rw [hca] at ha; simp at ha
  | some a =>
      cases hcp : d.purpose with
      | none => rw [hcp] at hp; simp at hp
      | some p => simp [txKeyMatches, txRowOf, sqlNullEq, hca, hcp]

theorem add_transaction_ok_elim (db db2 : DB) (d : TxData)
    (h : add_transaction db d = .ok db2) :
    d.amount.isSome = true ∧ d.purpose.isSome = true ∧
    db2.accounts = db.accounts ∧ db2.tts = db.tts ∧ db2.cps = db.cps ∧
      db2.hist = db.hist ∧ db2.txs = db.txs ++ [txRowOf d] := by
  rw [add_transaction] at h
  split at h
  · exact absurd h (by simp)
  · split at h
    · exact absurd h (by simp)
    · rename_i hguard
      injection h with h
      rw [← h]
      refine ⟨?_, ?_, rfl, rfl, rfl, rfl, rfl⟩
      · cases ha : d.amount with
        | none => rw [ha] at hguard; simp at hguard
        | some a => rfl
      · cases hp : d.purpose with
        | none => rw [hp] at hguard; simp at hguard
        | some p => rfl

theorem add_transaction_dup_elim (db : DB) (d : TxData)
    (h : add_transaction db d = .error .alreadyExists) :
    db.txs.any (txKeyMatches d) = true := by
  rw [add_transaction] at h
  split at h
  · assumption
  · split at h
    · exact absurd h (by simp)
    · exact absurd h (by simp)

theorem insert_transactions_extends (today : Date) (f : Option String → String) :
    ∀ (data : List ParsedTx) (db db2 : DB) (cbs cbs2 : List CBTriple) (i s i2 s2 : Nat),
    insert_transactions today f db data cbs i s = .ok (db2, cbs2, i2, s2) →
    DBExtends db db2 := by
  intro data
  induction data with
  | nil =>
      intro db db2 cbs cbs2 i s i2 s2 h
      simp only [insert_transactions] at h
      injection h with h
      injection h with h1 h
      rw [← h1]
      exact dbExtends_refl db
  | cons e rest ih =>
      intro db db2 cbs cbs2 i s i2 s2 h
      simp only [insert_transactions] at h
      cases hre : resolveEntry today f db e with
      | error er => rw [hre] at h; simp [exceptBind_err] at h
      | ok t =>
          obtain ⟨db1, d, cb⟩ := t
          rw [hre] at h
          simp only [exceptBind_ok] at h
          obtain ⟨hx1, -, -⟩ := resolveEntry_elim today f db db1 e d cb hre
          cases hat : add_transaction db1 d with
          | ok dbI =>
              rw [hat] at h
              exact dbExtends_trans
                (dbExtends_trans hx1 (add_transaction_extends db1 dbI d hat))
                (ih _ _ _ _ _ _ _ _ h)
          | error er =>
              rw [hat] at h
              cases er
              case alreadyExists => exact dbExtends_trans hx1 (ih _ _ _ _ _ _ _ _ h)
              all_goals simp [exceptThrow] at h

theorem insert_transactions_elim (today : Date) (f : Option String → String) :
    ∀ (data : List ParsedTx) (db db2 : DB) (cbs cbs2 : List CBTriple) (i s i2 s2 : Nat),
    insert_transactions today f db data cbs i s = .ok (db2, cbs2, i2, s2) →
    cbs2 = cbs ++ cbListOf data ∧
    ∀ e ∈ data, ∃ d, EntryReady db2 e d ∧ db2.txs.any (txKeyMatches d) = true := by
  intro data
  induction data with
  | nil =>
      intro db db2 cbs cbs2 i s i2 s2 h
      simp only [insert_transactions] at h
      injection h with h
      injection h with h1 h
      injection h with h2 h
      refine ⟨by rw [← h2]; simp [cbListOf], ?_⟩
      intro e he
      exact absurd he (by simp)
  | cons e rest ih =>
      intro db db2 cbs cbs2 i s i2 s2 h
      simp only [insert_transactions] at h
      cases hre : resolveEntry today f db e with
      | error er => rw [hre] at h; simp [exceptBind_err] at h
      | ok t =>
          obtain ⟨db1, d, cb⟩ := t
          rw [hre] at h
          simp only [exceptBind_ok] at h
          obtain ⟨hx1, hready1, hcb⟩ := resolveEntry_elim today f db db1 e d cb hre
          cases hat : add_transaction db1 d with
          | ok dbI =>
              rw [hat] at h
              obtain ⟨hcbs, hrest⟩ := ih _ _ _ _ _ _ _ _ h
              have hxR : DBExtends dbI db2 := insert_transactions_extends today f _ _ _ _ _ _ _ _ _ h
              obtain ⟨hA, hP, g1, g2, g3, g4, g5⟩ := add_transaction_ok_elim db1 dbI d hat
              have hx1I : DBExtends db1 dbI :=
                ⟨⟨[], by simp [g1]⟩, ⟨[], by simp [g2]⟩, ⟨[], by simp [g3]⟩,
                 ⟨[txRowOf d], g5⟩, ⟨[], by simp [g4]⟩⟩
              refine ⟨by rw [hcbs, hcb, cbListOf_cons, List.append_assoc], ?_⟩
              intro e2 he2
              rcases List.mem_cons.mp he2 with he2 | he2
              · subst he2
                refine ⟨d, entryReady_extends (dbExtends_trans hx1I hxR) _ d hready1, ?_⟩
                have hanyI : dbI.txs.any (txKeyMatches d) = true := by
                  rw [g5, List.any_append]
                  simp [txKeyMatches_self d hA hP]
                obtain ⟨l, hl⟩ := hxR.2.2.2.1
                rw [hl]
                exact any_append_left _ _ _ hanyI
              · exact hrest e2 he2
          | error er =>
              rw [hat] at h
              cases er
              case alreadyExists =>
                  obtain ⟨hcbs, hrest⟩ := ih _ _ _ _ _ _ _ _ h
                  have hxR : DBExtends db1 db2 :=
                    insert_transactions_extends today f _ _ _ _ _ _ _ _ _ h
                  refine ⟨by rw [hcbs, hcb, cbListOf_cons, List.append_assoc], ?_⟩
                  intro e2 he2
                  rcases List.mem_cons.mp he2 with he2 | he2
                  · subst he2
                    refine ⟨d, entryReady_extends hxR _ d hready1, ?_⟩
                    have hany1 : db1.txs.any (txKeyMatches d) = true :=
                      add_transaction_dup_elim db1 d hat
                    obtain ⟨l, hl⟩ := hxR.2.2.2.1
                    rw [hl]
                    exact any_append_left _ _ _ hany1
                  · exact hrest e2 he2
              all_goals simp [exceptThrow] at h

theorem insert_transactions_noop (today : Date) (f : Option String → String) :
    ∀ (data : List ParsedTx) (db : DB) (cbs : List CBTriple) (i s : Nat),
    (∀ e ∈ data, ∃ d, EntryReady db e d ∧ db.txs.any (txKeyMatches d) = true) →
    insert_transactions today f db data cbs i s
      = .ok (db, cbs ++ cbListOf data, i, s + data.length) := by
  intro data
  induction data with
  | nil => intro db cbs i s hready; simp [insert_transactions, cbListOf]
  | cons e rest ih =>
      intro db cbs i s hready
      obtain ⟨d, hrd, hany⟩ := hready e (List.mem_cons_self e rest)
      simp only [insert_transactions]
      rw [resolveEntry_intro today f db e d hrd]
      simp only [exceptBind_ok]
      have hdup : add_transaction db d = .error .alreadyExists := by
        rw [add_transaction, if_pos hany]
      rw [hdup]
      show insert_transactions today f db rest
          (cbs ++ (match e.closingBalance with | some c => [c] | none => [])) i (s + 1)
        = .ok (db, cbs ++ cbListOf (e :: rest), i, s + (e :: rest).length)
      rw [ih db _ i (s + 1) (fun e2 he2 => hready e2 (List.mem_cons_of_mem e he2))]
      rw [cbListOf_cons, ← List.append_assoc]
      have hlen : s + 1 + rest.length = s + (e :: rest).length := by
        simp [List.length_cons]
        omega
      rw [hlen]

theorem isOk_exists {α : Type} {x : Except Err α} (h : x.isOk = true) :
    ∃ a, x = .ok a := by
  cases x with
  | ok a => exact ⟨a, rfl⟩
  | error e => exact Bool.noConfusion (show false = true from h)

theorem add_account_history_frame (db db2 : DB) (today : Date) (accountId : Nat)
    (balance : Rat) (recordDate changeDate : String) (manualEntry : Bool)
    (h : add_account_history db today accountId balance recordDate changeDate manualEntry
      = .ok db2) :
    db2.accounts = db.accounts ∧ db2.tts = db.tts ∧ db2.cps = db.cps ∧
      db2.txs = db.txs ∧ ∃ l, db2.hist = db.hist ++ l := by
  rw [add_account_history] at h
  split at h
  · exact absurd h (by simp)
  · injection h with h
    rw [← h]
    exact ⟨rfl, rfl, rfl, rfl, ⟨_, rfl⟩⟩

theorem add_account_history_ok_hist (db db2 : DB) (today : Date) (accountId : Nat)
    (balance : Rat) (recordDate changeDate : String) (manualEntry : Bool)
    (h : add_account_history db today accountId balance recordDate changeDate manualEntry
      = .ok db2) :
    db2.hist.any (fun r => r.accountId = accountId && r.recordDate = recordDate)
      = true := by
  rw [add_account_history] at h
  split at h
  · exact absurd h (by simp)
  · injection h with h
    rw [← h]
    rw [List.any_append]
    simp

theorem add_account_history_dup_elim (db : DB) (today : Date) (accountId : Nat)
    (balance : Rat) (recordDate changeDate : String)
    (h : add_account_history db today accountId balance recordDate changeDate false
      = .error .existingHist) :
    db.hist.any (fun r => r.accountId = accountId && r.recordDate = recordDate)
      = true := by
  rw [add_account_history] at h
  split at h
  · rename_i hguard
    rw [Bool.not_false, Bool.and_true] at hguard
    exact hguard
  · exact absurd h (by simp)

theorem add_account_history_dup_intro (db : DB) (today : Date) (accountId : Nat)
    (balance : Rat) (recordDate changeDate : String)
    (hany : db.hist.any (fun r => r.accountId = accountId && r.recordDate = recordDate)
      = true) :
    add_account_history db today accountId balance recordDate changeDate false
      = .error .existingHist := by
  rw [add_account_history]
  rw [if_pos (by rw [hany]; rfl)]

theorem get_account_id_ok_mem (db : DB) (supName supNum supBal supDiff : Bool)
    (vName vNum : Option String) (vBal vDiff : Option Rat) (i : Nat)
    (h : get_account_id db supName supNum supBal supDiff vName vNum vBal vDiff = .ok i) :
    ∃ r ∈ db.accounts, r.id = i := by
  rw [get_account_id] at h
  split at h
  · exact absurd h (by simp)
  · cases hf : db.accounts.find?
        (accountMatches supName supNum supBal supDiff vName vNum vBal vDiff) with
    | none => rw [hf] at h; exact absurd h (by simp)
    | some r =>
        rw [hf] at h
        change Except.ok r.id = Except.ok i at h
        injection h with h
        exact ⟨r, List.mem_of_find?_eq_some hf, h⟩

theorem mem_alistSet : ∀ (m : LatestMap) (k : Option String) (v : String × Rat × Nat)
    (p : (Option String) × (String × Rat × Nat)),
    p ∈ latestEntries (alistSet m k v) → p ∈ latestEntries m ∨ p = (k, v) := by
  intro m k v
  induction m with
  | nil =>
      intro p hp
      simp only [alistSet, latestEntries] at hp
      rcases List.mem_singleton.mp hp with h
      exact Or.inr h
  | cons q rest ih =>
      intro p hp
      simp only [alistSet, latestEntries] at hp
      by_cases hq : q.1 = k
      · rw [if_pos hq] at hp
        rcases List.mem_cons.mp hp with h | h
        · exact Or.inr h
        · exact Or.inl (List.mem_cons_of_mem q h)
      · rw [if_neg hq] at hp
        rcases List.mem_cons.mp hp with h | h
        · exact Or.inl (by rw [h]; exact List.mem_cons_self q rest)
        · rcases ih p h with h2 | h2
          · exact Or.inl (List.mem_cons_of_mem q h2)
          · exact Or.inr h2

theorem insert_account_history_entries_frame (today : Date) :
    ∀ (cbs : List CBTriple) (db db2 : DB) (latest L : LatestMap) (a s a2 s2 : Nat),
    insert_account_history_entries today db cbs latest a s = .ok (db2, L, a2, s2) →
    db2.accounts = db.accounts ∧ db2.tts = db.tts ∧ db2.cps = db.cps ∧
      db2.txs = db.txs ∧ ∃ l, db2.hist = db.hist ++ l := by
  intro cbs
  induction cbs with
  | nil =>
      intro db db2 latest L a s a2 s2 h
      simp only [insert_account_history_entries] at h
      injection h with h
      injection h with h1 h
      rw [← h1]
      exact ⟨rfl, rfl, rfl, rfl, ⟨[], by simp⟩⟩
  | cons c rest ih =>
      intro db db2 latest L a s a2 s2 h
      simp only [insert_account_history_entries] at h
      cases hacc : get_account_id db false true false false none c.1 none none with
      | error er => rw [hacc] at h; cases er <;> simp [exceptThrow, exceptBind_err] at h
      | ok i =>
          rw [hacc] at h
          simp only [exceptPure, exceptBind_ok] at h
          cases hbal : pyFloat c.2.2 with
          | error er => rw [hbal] at h; simp [exceptBind_err] at h
          | ok b =>
              rw [hbal] at h
              simp only [exceptBind_ok] at h
              cases hiso : get_iso_date (some c.2.1) with
              | error er => rw [hiso] at h; simp [exceptBind_err] at h
              | ok iso =>
                  rw [hiso] at h
                  simp only [exceptBind_ok] at h
                  cases hah : add_account_history db today i b iso (isoOfDate today) false with
                  | ok dbH =>
                      rw [hah] at h
                      obtain ⟨g1, g2, g3, g4, g5⟩ := ih _ _ _ _ _ _ _ _ h
                      obtain ⟨f1, f2, f3, f4, f5⟩ :=
                        add_account_history_frame db dbH today i b iso (isoOfDate today)
                          false hah
                      refine ⟨g1.trans f1, g2.trans f2, g3.trans f3, g4.trans f4, ?_⟩
                      obtain ⟨l1, hl1⟩ := f5
                      obtain ⟨l2, hl2⟩ := g5
                      exact ⟨l1 ++ l2, by rw [hl2, hl1, List.append_assoc]⟩
                  | error er =>
                      rw [hah] at h
                      cases er
                      case existingHist => exact ih _ _ _ _ _ _ _ _ h
                      all_goals simp [exceptThrow] at h

theorem insert_account_history_entries_ready (today : Date) :
    ∀ (cbs : List CBTriple) (db db2 : DB) (latest L : LatestMap) (a s a2 s2 : Nat),
    insert_account_history_entries today db cbs latest a s = .ok (db2, L, a2, s2) →
    ∀ c ∈ cbs, TripleReady db2 c := by
  intro cbs
  induction cbs with
  | nil =>
      intro db db2 latest L a s a2 s2 h c hc
      exact absurd hc (by simp)
  | cons c0 rest ih =>
      intro db db2 latest L a s a2 s2 h c hc
      simp only [insert_account_history_entries] at h
      cases hacc : get_account_id db false true false false none c0.1 none none with
      | error er => rw [hacc] at h; cases er <;> simp [exceptThrow, exceptBind_err] at h
      | ok i =>
          rw [hacc] at h
          simp only [exceptPure, exceptBind_ok] at h
          cases hbal : pyFloat c0.2.2 with
          | error er => rw [hbal] at h; simp [exceptBind_err] at h
          | ok b =>
              rw [hbal] at h
              simp only [exceptBind_ok] at h
              cases hiso : get_iso_date (some c0.2.1) with
              | error er => rw [hiso] at h; simp [exceptBind_err] at h
              | ok iso =>
                  rw [hiso] at h
                  simp only [exceptBind_ok] at h
                  cases hah : add_account_history db today i b iso (isoOfDate today) false with
                  | ok dbH =>
                      rw [hah] at h
                      rcases List.mem_cons.mp hc with hceq | hcrest
                      · subst hceq
                        obtain ⟨g1, -, -, -, g5⟩ :=
                          insert_account_history_entries_frame today rest dbH db2
                            _ _ _ _ _ _ h
                        obtain ⟨f1, -, -, -, -⟩ :=
                          add_account_history_frame db dbH today i b iso (isoOfDate today)
                            false hah
                        refine ⟨by rw [hbal]; rfl, i, ?_, iso, hiso, ?_⟩
                        · rw [← get_account_id_congr db db2 (g1.trans f1).symm]
                          exact hacc
                        · obtain ⟨l, hl⟩ := g5
                          rw [hl]
                          exact any_append_left _ _ _
                            (add_account_history_ok_hist db dbH today i b iso
                              (isoOfDate today) false hah)
                      · exact ih _ _ _ _ _ _ _ _ h c hcrest
                  | error er =>
                      rw [hah] at h
                      cases er
                      case existingHist =>
                          rcases List.mem_cons.mp hc with hceq | hcrest
                          · subst hceq
                            obtain ⟨g1, -, -, -, g5⟩ :=
                              insert_account_history_entries_frame today rest db db2
                                _ _ _ _ _ _ h
                            refine ⟨by rw [hbal]; rfl, i, ?_, iso, hiso, ?_⟩
                            · rw [← get_account_id_congr db db2 g1.symm]
                              exact hacc
                            · obtain ⟨l, hl⟩ := g5
                              rw [hl]
                              exact any_append_left _ _ _
                                (add_account_history_dup_elim db today i b iso
                                  (isoOfDate today) hah)
                          · exact ih _ _ _ _ _ _ _ _ h c hcrest
                      all_goals simp [exceptThrow] at h

theorem insert_account_history_entries_noop (today : Date) :
    ∀ (cbs : List CBTriple) (db : DB) (latest : LatestMap) (a s : Nat),
    (∀ c ∈ cbs, TripleReady db c) → LatestOK db latest →
    ∃ L, insert_account_history_entries today db cbs latest a s
        = .ok (db, L, a, s + cbs.length) ∧ LatestOK db L := by
  intro cbs
  induction cbs with
  | nil =>
      intro db latest a s hready hOK
      exact ⟨latest, by simp [insert_account_history_entries], hOK⟩
  | cons c rest ih =>
      intro db latest a s hready hOK
      obtain ⟨hbalOk, i, hacc, iso, hiso, hany⟩ := hready c (List.mem_cons_self c rest)
      obtain ⟨b, hbal⟩ := isOk_exists hbalOk
      simp only [insert_account_history_entries]
      rw [hacc]
      simp only [exceptPure, exceptBind_ok]
      rw [hbal]
      simp only [exceptBind_ok]
      rw [hiso]
      simp only [exceptBind_ok]
      rw [add_account_history_dup_intro db today i b iso (isoOfDate today) hany]
      have hOKset : LatestOK db (alistSet latest c.1 (c.2.1, b, i)) := by
        intro p hp
        rcases mem_alistSet latest c.1 (c.2.1, b, i) p hp with hin | heqp
        · exact hOK p hin
        · rw [heqp]
          exact ⟨get_account_id_ok_mem db _ _ _ _ _ _ _ _ _ hacc, by rw [hiso]; rfl⟩
      have hOK2 : LatestOK db (match alistFind latest c.1 with
          | none => alistSet latest c.1 (c.2.1, b, i)
          | some cur =>
              if pyLt cur.1 c.2.1 then alistSet latest c.1 (c.2.1, b, i) else latest) := by
        cases alistFind latest c.1 with
        | none => exact hOKset
        | some cur =>
            change LatestOK db (if pyLt cur.1 c.2.1 = true
              then alistSet latest c.1 (c.2.1, b, i) else latest)
            by_cases hlt : pyLt cur.1 c.2.1 = true
            · rw [if_pos hlt]; exact hOKset
            · rw [if_neg hlt]; exact hOK
      obtain ⟨L, hrun, hLOK⟩ := ih db _ a (s + 1)
        (fun c2 hc2 => hready c2 (List.mem_cons_of_mem c hc2)) hOK2
      refine ⟨L, ?_, hLOK⟩
      have hlen : s + 1 + rest.length = s + (c :: rest).length := by
        simp [List.length_cons]
        omega
      exact hrun.trans (by rw [hlen])

theorem find?_of_mem {α : Type} (p : α → Bool) :
    ∀ (l : List α) (a : α), a ∈ l → p a = true → ∃ r, l.find? p = some r := by
  intro l
  induction l with
  | nil => intro a ha; cases ha
  | cons x xs ih =>
      intro a ha hp
      cases hx : p x with
      | true => exact ⟨x, by rw [List.find?_cons, hx]⟩
      | false =>
          rcases List.mem_cons.mp ha with h | h
          · rw [h] at hp
            rw [hx] at hp
            cases hp
          · obtain ⟨r, hr⟩ := ih a h hp
            exact ⟨r, by rw [List.find?_cons, hx]; exact hr⟩

theorem applyUpd_number_of_empty (u : AccountUpdate) (x : AccountRow)
    (hn : u.number = "") : (applyUpd u x).number = x.number := by
  simp [applyUpd, hn]

theorem accountsShape_refl (s : DB) : AccountsShape s s :=
  ⟨rfl, rfl, rfl, rfl, forall₂_self _ (fun _ => ⟨rfl, rfl⟩) s.accounts⟩

theorem accountsShape_trans {a b c : DB} (h1 : AccountsShape a b)
    (h2 : AccountsShape b c) : AccountsShape a c :=
  ⟨h2.1.trans h1.1, h2.2.1.trans h1.2.1, h2.2.2.1.trans h1.2.2.1,
   h2.2.2.2.1.trans h1.2.2.2.1,
   forall₂_trans (fun _ _ _ hxy hyz => ⟨hyz.1.trans hxy.1, hyz.2.trans hxy.2⟩)
     h1.2.2.2.2 h2.2.2.2.2⟩

theorem latestOK_shape {db db2 : DB} (hs : AccountsShape db db2) {m : LatestMap}
    (h : LatestOK db m) : LatestOK db2 m := by
  intro p hp
  obtain ⟨⟨r, hr, hid⟩, hiso⟩ := h p hp
  obtain ⟨r2, hr2, hR⟩ := forall₂_mem hs.2.2.2.2 r hr
  exact ⟨⟨r2, hr2, by rw [hR.1, hid]⟩, hiso⟩

theorem update_account_shape (db db2 : DB) (accountId : Nat) (u : AccountUpdate)
    (hn : u.number = "") (h : update_account db accountId u = .ok db2) :
    AccountsShape db db2 := by
  obtain ⟨r, hfind, hstale, hdb2⟩ := update_account_ok_elim db accountId u db2 h
  rw [hdb2]
  refine ⟨rfl, rfl, rfl, rfl, ?_⟩
  refine forall₂_map_self _ _ ?_ db.accounts
  intro x
  by_cases hid : x.id = accountId
  · rw [if_pos hid]
    exact ⟨applyUpd_id u x, applyUpd_number_of_empty u x hn⟩
  · rw [if_neg hid]
    exact ⟨rfl, rfl⟩

theorem update_account_outcomes (db : DB) (accountId : Nat) (u : AccountUpdate)
    (hex : ∃ r ∈ db.accounts, r.id = accountId) :
    (∃ db2, update_account db accountId u = .ok db2) ∨
    update_account db accountId u = .error .noChanges ∨
    update_account db accountId u = .error .recordTooOld := by
  obtain ⟨r, hr, hid⟩ := hex
  obtain ⟨r2, hr2⟩ := find?_of_mem (fun x => x.id = accountId) db.accounts r hr
    (by simp [hid])
  have heval : update_account db accountId u =
      (if (match r2.recordDate with
            | some cur => pyLt u.recordDate cur
            | none => false) = true then .error .recordTooOld
       else if !updChanges u r2 then .error .noChanges
       else .ok { db with accounts := db.accounts.map (fun x => if x.id = accountId then applyUpd u x else x) }) := by
    rw [update_account, hr2]
  rw [heval]
  split
  · exact Or.inr (Or.inr rfl)
  · split
    · exact Or.inr (Or.inl rfl)
    · exact Or.inl ⟨_, rfl⟩

theorem updateBalanceEntry_ok (today : Date) (db : DB) (rd : String)
    (bal : Rat) (i : Nat)
    (hiso : (get_iso_date (some rd)).isOk = true)
    (hex : ∃ r ∈ db.accounts, r.id = i) :
    ∃ o, updateBalanceEntry today db rd bal i = .ok o ∧
      ∀ db2, o = some db2 → AccountsShape db db2 := by
  obtain ⟨iso, hiso2⟩ := isOk_exists hiso
  rw [updateBalanceEntry]
  cases hlb : get_last_balance db today i with
  | ok b =>
      simp only [exceptPure, exceptBind_ok]
      rw [hiso2]
      simp only [exceptBind_ok]
      rcases update_account_outcomes db i
          { widgetPosition := none, name := "", number := "",
            balance := some bal, difference := some (round2 (ratSub bal b)),
            recordDate := iso, changeDate := isoOfDate today } hex with
        ⟨db2, hok⟩ | hnc | hrto
      · rw [hok]
        refine ⟨some db2, rfl, ?_⟩
        intro db3 hdb3
        injection hdb3 with hdb3
        rw [← hdb3]
        exact update_account_shape db db2 i _ rfl hok
      · rw [hnc]
        exact ⟨none, rfl, fun db3 hdb3 => by cases hdb3⟩
      · rw [hrto]
        exact ⟨none, rfl, fun db3 hdb3 => by cases hdb3⟩
  | error er =>
      have her := get_last_balance_err db today i er hlb
      subst her
      simp only [exceptPure, exceptBind_ok]
      rw [hiso2]
      simp only [exceptBind_ok]
      rcases update_account_outcomes db i
          { widgetPosition := none, name := "", number := "",
            balance := some bal, difference := some (round2 (ratSub bal 0)),
            recordDate := iso, changeDate := isoOfDate today } hex with
        ⟨db2, hok⟩ | hnc | hrto
      · rw [hok]
        refine ⟨some db2, rfl, ?_⟩
        intro db3 hdb3
        injection hdb3 with hdb3
        rw [← hdb3]
        exact update_account_shape db db2 i _ rfl hok
      · rw [hnc]
        exact ⟨none, rfl, fun db3 hdb3 => by cases hdb3⟩
      · rw [hrto]
        exact ⟨none, rfl, fun db3 hdb3 => by cases hdb3⟩

theorem updateBalanceEntry_some_shape (today : Date) (db db' : DB) (rd : String)
    (bal : Rat) (i : Nat)
    (h : updateBalanceEntry today db rd bal i = .ok (some db')) :
    AccountsShape db db' := by
  rw [updateBalanceEntry] at h
  cases hlb : get_last_balance db today i with
  | ok b =>
      rw [hlb] at h
      simp only [exceptPure, exceptBind_ok] at h
      cases hiso : get_iso_date (some rd) with
      | error er => rw [hiso] at h; simp [exceptBind_err] at h
      | ok iso =>
          rw [hiso] at h
          simp only [exceptBind_ok] at h
          cases hupd : update_account db i
              { widgetPosition := none, name := "", number := "",
                balance := some bal, difference := some (round2 (ratSub bal b)),
                recordDate := iso, changeDate := isoOfDate today } with
          | ok dbu =>
              rw [hupd] at h
              simp only [exceptPure] at h
              injection h with h
              injection h with h
              rw [← h]
              exact update_account_shape db dbu i _ rfl hupd
          | error er =>
              rw [hupd] at h
              cases er
              case noChanges => simp [exceptPure] at h
              case recordTooOld => simp [exceptPure] at h
              all_goals simp [exceptThrow] at h
  | error er =>
      have her := get_last_balance_err db today i er hlb
      subst her
      rw [hlb] at h
      simp only [exceptPure, exceptBind_ok] at h
      cases hiso : get_iso_date (some rd) with
      | error er => rw [hiso] at h; simp [exceptBind_err] at h
      | ok iso =>
          rw [hiso] at h
          simp only [exceptBind_ok] at h
          cases hupd : update_account db i
              { widgetPosition := none, name := "", number := "",
                balance := some bal, difference := some (round2 (ratSub bal 0)),
                recordDate := iso, changeDate := isoOfDate today } with
          | ok dbu =>
              rw [hupd] at h
              simp only [exceptPure] at h
              injection h with h
              injection h with h
              rw [← h]
              exact update_account_shape db dbu i _ rfl hupd
          | error er =>
              rw [hupd] at h
              cases er
              case noChanges => simp [exceptPure] at h
              case recordTooOld => simp [exceptPure] at h
              all_goals simp [exceptThrow] at h

theorem update_account_balances_ok (today : Date) :
    ∀ (latest : LatestMap) (db : DB), LatestOK db latest →
    ∃ db2, update_account_balances today db latest = .ok db2 ∧ AccountsShape db db2 := by
  intro latest
  induction latest with
  | nil =>
      intro db hOK
      exact ⟨db, by simp [update_account_balances], accountsShape_refl db⟩
  | cons p rest ih =>
      intro db hOK
      obtain ⟨hex, hiso⟩ := hOK p (List.mem_cons_self p rest)
      obtain ⟨o, ho, hsh⟩ := updateBalanceEntry_ok today db p.2.1 p.2.2.1 p.2.2.2 hiso hex
      simp only [update_account_balances]
      rw [ho]
      simp only [exceptBind_ok]
      cases o with
      | some db' =>
          have hshape : AccountsShape db db' := hsh db' rfl
          obtain ⟨db2, hrun, hsh2⟩ := ih db' (latestOK_shape hshape
            (fun q hq => hOK q (List.mem_cons_of_mem p hq)))
          exact ⟨db2, hrun, accountsShape_trans hshape hsh2⟩
      | none =>
          obtain ⟨db2, hrun, hsh2⟩ := ih db (fun q hq => hOK q (List.mem_cons_of_mem p hq))
          exact ⟨db2, hrun, hsh2⟩

theorem update_account_balances_shape (today : Date) :
    ∀ (latest : LatestMap) (db db2 : DB),
    update_account_balances today db latest = .ok db2 → AccountsShape db db2 := by
  intro latest
  induction latest with
  | nil =>
      intro db db2 h
      simp only [update_account_balances] at h
      injection h with h
      rw [← h]
      exact accountsShape_refl db
  | cons p rest ih =>
      intro db db2 h
      simp only [update_account_balances] at h
      cases hub : updateBalanceEntry today db p.2.1 p.2.2.1 p.2.2.2 with
      | error er => rw [hub] at h; simp [exceptBind_err] at h
      | ok o =>
          rw [hub] at h
          simp only [exceptBind_ok] at h
          cases o with
          | some db' =>
              exact accountsShape_trans
                (updateBalanceEntry_some_shape today db db' p.2.1 p.2.2.1 p.2.2.2 hub)
                (ih db' db2 h)
          | none => exact ih db db2 h

theorem tripleReady_shape {db db2 : DB} (hs : AccountsShape db db2) (c : CBTriple)
    (h : TripleReady db c) : TripleReady db2 c := by
  obtain ⟨hb, i, hacc, iso, hiso, hany⟩ := h
  exact ⟨hb, i, get_account_id_shape hs _ _ hacc, iso, hiso,
    by rw [hs.2.2.2.1]; exact hany⟩

/-- C1: the import is idempotent on the persisted statement data. After a
successful run of `insert_all_data_to_db`, a second run on the same data
(under any run day and naming collaborator) succeeds, inserts 0
transactions counting every entry as a duplicate, adds 0 account-history
rows counting every closing balance as already existing, and leaves the
Transaction and AccountHistory tables exactly as the first run left them.
(Every transaction the first run persisted or detected carries non-NULL
natural-key fields — the schema's `NOT NULL` constraints reject the rest —
so the duplicate check of the second run matches it.) -/
theorem c1_reimport_idempotent
    (today today2 : Date) (f f2 : Option String → String) (db0 : DB)
    (data : List ParsedTx) (S1 : DB) (i1 s1 a1 k1 : Nat)
    (h1 : insert_all_data_to_db today f db0 data = .ok (S1, i1, s1, a1, k1)) :
    ∃ S2, insert_all_data_to_db today2 f2 S1 data
        = .ok (S2, 0, data.length, 0, (cbListOf data).length) ∧
      S2.txs = S1.txs ∧ S2.hist = S1.hist := by
  rw [insert_all_data_to_db] at h1
  cases hP1 : insert_transactions today f db0 data [] 0 0 with
  | error er => rw [hP1] at h1; simp [exceptBind_err] at h1
  | ok t1 =>
      obtain ⟨S1a, cbs, i1x, s1x⟩ := t1
      rw [hP1] at h1
      simp only [exceptBind_ok] at h1
      cases hP2 : insert_account_history_entries today S1a cbs [] 0 0 with
      | error er => rw [hP2] at h1; simp [exceptBind_err] at h1
      | ok t2 =>
          obtain ⟨S1b, latest1, a1x, k1x⟩ := t2
          rw [hP2] at h1
          simp only [exceptBind_ok] at h1
          cases hP3 : update_account_balances today S1b latest1 with
          | error er => rw [hP3] at h1; simp [exceptBind_err] at h1
          | ok S1y =>
              rw [hP3] at h1
              simp only [exceptBind_ok, exceptPure] at h1
              injection h1 with h1
              injection h1 with hS1 h1
              subst hS1
              obtain ⟨hcbs, hreadyA⟩ := insert_transactions_elim today f data
                db0 S1a [] cbs 0 0 i1x s1x hP1
              rw [List.nil_append] at hcbs
              subst hcbs
              obtain ⟨fB1, fB2, fB3, fB4, -⟩ :=
                insert_account_history_entries_frame today (cbListOf data)
                  S1a S1b [] latest1 0 0 a1x k1x hP2
              have hreadyB := insert_account_history_entries_ready today (cbListOf data)
                S1a S1b [] latest1 0 0 a1x k1x hP2
              have hshapeC := update_account_balances_shape today latest1 S1b S1y hP3
              have hready2 : ∀ e ∈ data, ∃ d, EntryReady S1y e d ∧
                  S1y.txs.any (txKeyMatches d) = true := by
                intro e he
                obtain ⟨d, hrdA, hanyA⟩ := hreadyA e he
                refine ⟨d, ?_, ?_⟩
                · exact entryReady_shape hshapeC e d
                    (entryReady_congr S1a S1b fB1.symm fB2.symm fB3.symm e d hrdA)
                · rw [hshapeC.2.2.1, fB4]
                  exact hanyA
              have hready2T : ∀ c ∈ cbListOf data, TripleReady S1y c := by
                intro c hc
                exact tripleReady_shape hshapeC c (hreadyB c hc)
              have hrun2P1 := insert_transactions_noop today2 f2 data S1y [] 0 0 hready2
              obtain ⟨L2, hrun2P2, hLOK2⟩ :=
                insert_account_history_entries_noop today2 (cbListOf data) S1y [] 0 0
                  hready2T (fun p hp => absurd hp (by simp [latestEntries]))
              obtain ⟨S2, hrun2P3, hshape2⟩ := update_account_balances_ok today2 L2 S1y hLOK2
              refine ⟨S2, ?_, hshape2.2.2.1, hshape2.2.2.2.1⟩
              rw [insert_all_data_to_db]
              rw [hrun2P1]
              simp only [exceptBind_ok, List.nil_append, Nat.zero_add]
              rw [hrun2P2]
              simp only [exceptBind_ok, Nat.zero_add]
              rw [hrun2P3]
              simp only [exceptBind_ok, exceptPure]

set_option maxHeartbeats 1600000 in
/-- C1 witness: the idempotence theorem at a concrete one-entry imported
list, with the first run evaluated. -/
theorem c1_witness :
    ∃ S1, insert_all_data_to_db c1Day c1Oracle {} [goodTx] = .ok (S1, 1, 0, 1, 0) ∧
      ∃ S2, insert_all_data_to_db c1Day c1Oracle S1 [goodTx] = .ok (S2, 0, 1, 0, 1) ∧
        S2.txs = S1.txs ∧ S2.hist = S1.hist := by
  refine ⟨_, rfl, ?_⟩
  obtain ⟨S2, hrun, ht, hh⟩ := c1_reimport_idempotent c1Day c1Day c1Oracle
    c1Oracle {} [goodTx] _ 1 0 1 0 rfl
  exact ⟨S2, hrun, ht, hh⟩

end BP
